import Mathlib

/-!
# Verification of the PayPal MCP server core (transport framing + dispatcher)

This development shallowly embeds the core of the `paypal_mcp_server`
repository — the stdio transport (`src/mcp/transport.py`) and the MCP
dispatcher/registry (`src/mcp/server.py`) together with the capability
catalog (`src/tools/definitions.py`) and the parameter schemas
(`src/tools/parameters.py`) — and proves or refutes the specified
properties of that core.

Modelling conventions:

* Python `str` values are embedded as `List Char` (sequences of Unicode
  scalar values); Python `bytes` as `List Nat` with each element `< 256`.
* JSON-serializable Python data (the message objects) is embedded as the
  inductive type `Json` below, with integer numbers (the protocol never
  relies on floats), strings, booleans, `None`, lists and string-keyed
  dicts.  Dicts preserve insertion order, as CPython dicts do.
* `json.dumps` (default arguments: `ensure_ascii=True`, separators
  `", "` / `": "`, no `sort_keys`) and `json.loads` from the standard
  library are modelled by `dumps` and `loads` below.
* Opaque collaborators (the PayPal API handlers, the prompt texts) are
  parameters of the embedding, exactly as the spec treats them.
-/

set_option maxRecDepth 8192
set_option synthInstance.maxHeartbeats 400000

namespace PaypalMcp

/-- Embedding of a JSON-serializable Python object: `None`, `bool`, `int`,
`str`, `list`, and string-keyed `dict` (insertion-ordered, as in CPython).
This is the message universe exchanged over the transport. -/
inductive Json : Type where
  | null : Json
  | bool (b : Bool) : Json
  | int (n : Int) : Json
  | str (s : List Char) : Json
  | arr (elems : List Json) : Json
  | obj (fields : List (List Char × Json)) : Json
deriving Repr

/-! ### Decidable equality on `Json`

The automatic derivation does not handle the nested occurrences of `Json`
under `List`, so Boolean equality and its characterisation are spelled out
by hand. -/

mutual

/-- Structural Boolean equality on `Json`. -/
def beqJson : Json → Json → Bool
  | Json.null, Json.null => true
  | Json.bool a, Json.bool b => a = b
  | Json.int a, Json.int b => a = b
  | Json.str a, Json.str b => a = b
  | Json.arr a, Json.arr b => beqArr a b
  | Json.obj a, Json.obj b => beqObj a b
  | _, _ => false

/-- Pointwise Boolean equality on JSON arrays. -/
def beqArr : List Json → List Json → Bool
  | [], [] => true
  | a :: as, b :: bs => beqJson a b && beqArr as bs
  | _, _ => false

/-- Pointwise Boolean equality on JSON object field lists. -/
def beqObj : List (List Char × Json) → List (List Char × Json) → Bool
  | [], [] => true
  | (k, v) :: as, (l, w) :: bs => k = l && beqJson v w && beqObj as bs
  | _, _ => false

end

mutual

/-- `beqJson` decides propositional equality. -/
theorem beqJson_iff : ∀ a b : Json, beqJson a b = true ↔ a = b
  | Json.null, b => by cases b <;> simp [beqJson]
  | Json.bool a, b => by cases b <;> simp [beqJson]
  | Json.int a, b => by cases b <;> simp [beqJson]
  | Json.str a, b => by cases b <;> simp [beqJson]
  | Json.arr a, b => by
      cases b <;> simp [beqJson]
      exact beqArr_iff a _
  | Json.obj a, b => by
      cases b <;> simp [beqJson]
      exact beqObj_iff a _

/-- `beqArr` decides propositional equality. -/
theorem beqArr_iff : ∀ a b : List Json, beqArr a b = true ↔ a = b
  | [], b => by cases b <;> simp [beqArr]
  | a :: as, [] => by simp [beqArr]
  | a :: as, b :: bs => by
      simp only [beqArr, Bool.and_eq_true, beqJson_iff a b, beqArr_iff as bs,
        List.cons.injEq]

/-- `beqObj` decides propositional equality. -/
theorem beqObj_iff : ∀ a b : List (List Char × Json), beqObj a b = true ↔ a = b
  | [], b => by cases b <;> simp [beqObj]
  | a :: as, [] => by simp [beqObj]
  | (k, v) :: as, (l, w) :: bs => by
      simp only [beqObj, Bool.and_eq_true, beqJson_iff v w, beqObj_iff as bs,
        List.cons.injEq, Prod.mk.injEq, decide_eq_true_eq, and_assoc]

end

instance : DecidableEq Json := fun a b =>
  decidable_of_iff (beqJson a b = true) (beqJson_iff a b)

/-! ## Decimal printing of integers

`json.dumps` renders an `int` via its decimal representation; the
`Content-Length` header value is rendered the same way by the f-string in
`StdioTransport.send`.  `natToDec` is the usual most-significant-first
decimal digit string of a natural number, and `intToDec` adds the sign. -/

/-- Decimal digit character for `d < 10`. -/
def digitChar (d : Nat) : Char := Char.ofNat (48 + d)

/-- Fuel-structured helper of `natToDec` (fuel only bounds the digit
count, keeping the definition kernel-reducible). -/
def natToDecAux : Nat → Nat → List Char
  | 0, _ => []
  | fuel + 1, n =>
    if n < 10 then [digitChar n]
    else natToDecAux fuel (n / 10) ++ [digitChar (n % 10)]

/-- Decimal representation of a natural number, most significant digit
first (no leading zeros; `0` is rendered `"0"`). -/
def natToDec (n : Nat) : List Char := natToDecAux (n + 1) n

/-- The fuel of `natToDecAux` is irrelevant once it exceeds `n`. -/
theorem natToDecAux_congr : ∀ f1 f2 n, n < f1 → n < f2 →
    natToDecAux f1 n = natToDecAux f2 n
  | 0, _, _, h1, _ => absurd h1 (by omega)
  | _ + 1, 0, _, _, h2 => absurd h2 (by omega)
  | f1 + 1, f2 + 1, n, h1, h2 => by
    by_cases h10 : n < 10
    · simp [natToDecAux, h10]
    · have hrec : natToDecAux f1 (n / 10) = natToDecAux f2 (n / 10) :=
        natToDecAux_congr f1 f2 (n / 10) (by omega) (by omega)
      simp [natToDecAux, h10, hrec]

/-- The defining recurrence of `natToDec`. -/
theorem natToDec_eq (n : Nat) :
    natToDec n = if n < 10 then [digitChar n] else natToDec (n / 10) ++ [digitChar (n % 10)] := by
  by_cases h10 : n < 10
  · simp [natToDec, natToDecAux, h10]
  · have h1 : natToDecAux n (n / 10) = natToDecAux (n / 10 + 1) (n / 10) :=
      natToDecAux_congr n (n / 10 + 1) (n / 10) (by omega) (by omega)
    simp only [natToDec, natToDecAux, h10, if_false, h1]

/-- Decimal representation of an integer (Python `repr` of an `int`). -/
def intToDec : Int → List Char
  | Int.ofNat n => natToDec n
  | Int.negSucc n => Char.ofNat 45 :: natToDec (n + 1)

/-! ## String escaping (`json.dumps`, `ensure_ascii=True`)

CPython's `c_encode_basestring_ascii` leaves the printable ASCII range
`0x20`–`0x7e` as-is (except `"` and `\`), uses the short escapes for the
usual control characters, renders every other BMP character as `\uXXXX`
(lowercase hex) and characters above the BMP as a UTF-16 surrogate pair
`\uhhhh\ullll`. -/

/-- Lowercase hexadecimal digit character for `d < 16`. -/
def hexChar (d : Nat) : Char :=
  if d < 10 then Char.ofNat (48 + d) else Char.ofNat (87 + d)

/-- Four-lowercase-hex-digit rendering of `n < 0x10000`, as in `"\uXXXX"`
escapes produced by `json.dumps`. -/
def toHex4 (n : Nat) : List Char :=
  [hexChar (n / 4096 % 16), hexChar (n / 256 % 16), hexChar (n / 16 % 16), hexChar (n % 16)]

/-- The `\uXXXX` escape (backslash included) for a code unit `n < 0x10000`. -/
def uEscape (n : Nat) : List Char := Char.ofNat 92 :: Char.ofNat 117 :: toHex4 n

/-- Escape a single character the way `json.dumps(..., ensure_ascii=True)`
does inside a string literal. -/
def escapeChar (c : Char) : List Char :=
  if c = Char.ofNat 92 then [Char.ofNat 92, Char.ofNat 92]
  else if c = Char.ofNat 34 then [Char.ofNat 92, Char.ofNat 34]
  else if c = Char.ofNat 8 then [Char.ofNat 92, Char.ofNat 98]
  else if c = Char.ofNat 9 then [Char.ofNat 92, Char.ofNat 116]
  else if c = Char.ofNat 10 then [Char.ofNat 92, Char.ofNat 110]
  else if c = Char.ofNat 12 then [Char.ofNat 92, Char.ofNat 102]
  else if c = Char.ofNat 13 then [Char.ofNat 92, Char.ofNat 114]
  else if 32 ≤ c.toNat ∧ c.toNat ≤ 126 then [c]
  else if c.toNat < 65536 then uEscape c.toNat
  else
    uEscape (55296 + (c.toNat - 65536) / 1024) ++ uEscape (56320 + (c.toNat - 65536) % 1024)

/-- Body of a JSON string literal: each character escaped. -/
def escapeStr (s : List Char) : List Char := (s.map escapeChar).flatten

/-- A complete JSON string literal: `"` body `"`. -/
def quoteStr (s : List Char) : List Char :=
  Char.ofNat 34 :: escapeStr s ++ [Char.ofNat 34]

/-! ## `json.dumps` with default arguments

Default separators are `", "` between items and `": "` between a key and
its value; empty containers render as `[]` / `{}`. -/

mutual

/-- `json.dumps(v)` with default arguments, as a character list. -/
def dumps : Json → List Char
  | Json.null => [Char.ofNat 110, Char.ofNat 117, Char.ofNat 108, Char.ofNat 108]
  | Json.bool true => [Char.ofNat 116, Char.ofNat 114, Char.ofNat 117, Char.ofNat 101]
  | Json.bool false =>
      [Char.ofNat 102, Char.ofNat 97, Char.ofNat 108, Char.ofNat 115, Char.ofNat 101]
  | Json.int n => intToDec n
  | Json.str s => quoteStr s
  | Json.arr [] => [Char.ofNat 91, Char.ofNat 93]
  | Json.arr (x :: xs) => Char.ofNat 91 :: dumps x ++ dumpsArrRest xs
  | Json.obj [] => [Char.ofNat 123, Char.ofNat 125]
  | Json.obj (f :: fs) => Char.ofNat 123 :: dumpsField f ++ dumpsObjRest fs

/-- Remaining elements of a non-empty array: `", " e … "]"`. -/
def dumpsArrRest : List Json → List Char
  | [] => [Char.ofNat 93]
  | x :: xs => Char.ofNat 44 :: Char.ofNat 32 :: dumps x ++ dumpsArrRest xs

/-- One `"key": value` pair of an object. -/
def dumpsField : List Char × Json → List Char
  | (k, v) => quoteStr k ++ Char.ofNat 58 :: Char.ofNat 32 :: dumps v

/-- Remaining fields of a non-empty object: `", " "k": v … "}"`. -/
def dumpsObjRest : List (List Char × Json) → List Char
  | [] => [Char.ofNat 125]
  | f :: fs => Char.ofNat 44 :: Char.ofNat 32 :: dumpsField f ++ dumpsObjRest fs

end

/-! ## Ordered-dict association lists

CPython `dict` assignment `d[k] = v` updates the value in place when the
key exists (keeping its original position) and appends otherwise.  Both
`json.loads` (duplicate keys in a JSON object: last value wins, first
position kept) and the server's registries rely on this. -/

/-- Lookup in an insertion-ordered association list (first match). -/
def alookup {α : Type} : List (List Char × α) → List Char → Option α
  | [], _ => none
  | kv :: rest, key => if kv.1 = key then some kv.2 else alookup rest key

/-- CPython `dict` assignment on an association list: update in place if
the key is present, append otherwise. -/
def ainsert {α : Type} : List (List Char × α) → List Char → α → List (List Char × α)
  | [], key, v => [(key, v)]
  | kv :: rest, key, v =>
      if kv.1 = key then (kv.1, v) :: rest else kv :: ainsert rest key v

/-- Build a dict from a pair list by successive assignment (the effect of
`dict(pairs)` / the JSON object scanner). -/
def adictOf {α : Type} (pairs : List (List Char × α)) : List (List Char × α) :=
  pairs.foldl (fun acc kv => ainsert acc kv.1 kv.2) []

/-! ## `json.loads`

A recursive-descent parser following the JSON grammar accepted by
`json.loads` in strict mode (raw control characters rejected inside
strings, no leading zeros, `NaN`/`Infinity` and floats outside the model:
the protocol messages only carry integers, and a float token makes the
parser fail rather than return a wrong value).  Lone UTF-16 surrogate
escapes are likewise rejected (CPython materialises them as lone
surrogate code units, which have no counterpart in a scalar-value string
model); `dumps` output never contains them. -/

/-- JSON whitespace accepted between tokens. -/
def isWs (c : Char) : Bool :=
  c.toNat = 32 || c.toNat = 9 || c.toNat = 10 || c.toNat = 13

/-- Drop leading JSON whitespace. -/
def skipWs : List Char → List Char
  | [] => []
  | c :: cs => if isWs c then skipWs cs else c :: cs

/-- Value of one hexadecimal digit (both cases), if any. -/
def hexVal (c : Char) : Option Nat :=
  if 48 ≤ c.toNat ∧ c.toNat ≤ 57 then some (c.toNat - 48)
  else if 97 ≤ c.toNat ∧ c.toNat ≤ 102 then some (c.toNat - 87)
  else if 65 ≤ c.toNat ∧ c.toNat ≤ 70 then some (c.toNat - 55)
  else none

/-- Read exactly four hex digits, returning their value and the rest. -/
def parseHex4 : List Char → Option (Nat × List Char)
  | a :: b :: c :: d :: rest =>
    match hexVal a, hexVal b, hexVal c, hexVal d with
    | some x, some y, some z, some w => some (4096 * x + 256 * y + 16 * z + w, rest)
    | _, _, _, _ => none
  | _ => none

/-- `parseHex4` consumes exactly four characters. -/
theorem parseHex4_length : ∀ {s : List Char} {n : Nat} {r : List Char},
    parseHex4 s = some (n, r) → r.length + 4 = s.length
  | a :: b :: c :: d :: rest, n, r => by
    simp only [parseHex4]
    intro h
    split at h
    · cases h; simp
    · cases h
  | [], _, _ => by simp [parseHex4]
  | [_], _, _ => by simp [parseHex4]
  | [_, _], _, _ => by simp [parseHex4]
  | [_, _, _], _, _ => by simp [parseHex4]

/-- The one-character escapes of the JSON grammar (`\"` `\\` `\/` `\b`
`\f` `\n` `\r` `\t`). -/
def simpleEscape (e : Char) : Option Char :=
  if e.toNat = 34 then some (Char.ofNat 34)
  else if e.toNat = 92 then some (Char.ofNat 92)
  else if e.toNat = 47 then some (Char.ofNat 47)
  else if e.toNat = 98 then some (Char.ofNat 8)
  else if e.toNat = 102 then some (Char.ofNat 12)
  else if e.toNat = 110 then some (Char.ofNat 10)
  else if e.toNat = 114 then some (Char.ofNat 13)
  else if e.toNat = 116 then some (Char.ofNat 9)
  else none

/-- Decode the tail of a `\uXXXX` escape (after the `\u`): a single
`\uXXXX` for a non-surrogate code unit, or a full surrogate pair.  Lone
surrogates are rejected (see the module comment on `loads`). -/
def readUnicodeEscape (cs : List Char) : Option (Char × List Char) :=
  match parseHex4 cs with
  | none => none
  | some (n, cs2) =>
    if 55296 ≤ n ∧ n ≤ 56319 then
      match cs2 with
      | b1 :: b2 :: cs3 =>
        if b1.toNat = 92 ∧ b2.toNat = 117 then
          match parseHex4 cs3 with
          | some (m, cs4) =>
            if 56320 ≤ m ∧ m ≤ 57343 then
              some (Char.ofNat (65536 + 1024 * (n - 55296) + (m - 56320)), cs4)
            else none
          | none => none
        else none
      | _ => none
    else if 56320 ≤ n ∧ n ≤ 57343 then none
    else some (Char.ofNat n, cs2)

/-- `readUnicodeEscape` consumes at least four characters. -/
theorem readUnicodeEscape_length {cs : List Char} {c : Char} {rest : List Char}
    (h : readUnicodeEscape cs = some (c, rest)) : rest.length + 4 ≤ cs.length := by
  rw [readUnicodeEscape] at h
  split at h
  · cases h
  next n cs2 hh =>
    have h2 := parseHex4_length hh
    split at h
    · split at h
      · split at h
        · split at h
          · next m cs4 hh2 =>
              have h3 := parseHex4_length hh2
              split at h
              · simp only [Option.some.injEq, Prod.mk.injEq] at h
                obtain ⟨-, h5⟩ := h
                subst h5
                simp only [List.length_cons] at h2
                omega
              · cases h
          · cases h
        · cases h
      · cases h
    · split at h
      · cases h
      · simp only [Option.some.injEq, Prod.mk.injEq] at h
        obtain ⟨-, h5⟩ := h
        subst h5
        omega

/-- Decode one unit of a JSON string literal body: `some (none, rest)` at
the closing quote, `some (some c, rest)` for one decoded character
(literal, simple escape, `\uXXXX`, or a surrogate pair), `none` on
malformed input (strict mode also rejects raw control characters). -/
def readStrChunk : List Char → Option (Option Char × List Char)
  | [] => none
  | c :: cs =>
    if c.toNat = 34 then some (none, cs)
    else if c.toNat = 92 then
      match cs with
      | [] => none
      | e :: cs' =>
        match simpleEscape e with
        | some d => some (some d, cs')
        | none =>
          if e.toNat = 117 then
            (readUnicodeEscape cs').map (fun p => (some p.1, p.2))
          else none
    else if c.toNat < 32 then none
    else some (some c, cs)

/-- The rest of `readStrChunk`'s input is strictly shorter than its
input, which justifies recursing on string bodies by length. -/
theorem readStrChunk_length : ∀ {s : List Char} {u : Option Char} {rest : List Char},
    readStrChunk s = some (u, rest) → rest.length < s.length
  | [], _, _ => by simp [readStrChunk]
  | c :: cs, u, rest => by
    simp only [readStrChunk]
    intro h
    split at h
    · cases h; simp
    · split at h
      · match cs with
        | [] => cases h
        | e :: cs' =>
          simp only at h
          match hse : simpleEscape e with
          | some d => rw [hse] at h; cases h; simp; omega
          | none =>
            rw [hse] at h
            simp only at h
            split at h
            · match hu : readUnicodeEscape cs' with
              | none => rw [hu] at h; cases h
              | some (d, cs2) =>
                rw [hu] at h
                have := readUnicodeEscape_length hu
                cases h
                simp
                omega
            · cases h
      · split at h
        · cases h
        · cases h; simp

/-- Body of a JSON string literal after the opening quote: the decoded
characters and the input after the closing quote.  Fuel keeps the
definition kernel-reducible; each chunk consumes at least one character
(`readStrChunk_length`), so callers pass the input length plus one. -/
def parseStringBody : Nat → List Char → Option (List Char × List Char)
  | 0, _ => none
  | fuel + 1, s =>
    match readStrChunk s with
    | none => none
    | some (none, rest) => some ([], rest)
    | some (some c, rest) =>
        (parseStringBody fuel rest).map (fun p => (c :: p.1, p.2))

/-- Is `c` a decimal digit? -/
def isDigit (c : Char) : Bool := 48 ≤ c.toNat && c.toNat ≤ 57

/-- Maximal leading run of decimal digits, as values, plus the rest. -/
def takeDigits : List Char → List Nat × List Char
  | [] => ([], [])
  | c :: cs =>
    if isDigit c then
      let p := takeDigits cs
      ((c.toNat - 48) :: p.1, p.2)
    else ([], c :: cs)

/-- Value of a most-significant-first digit list. -/
def digitsVal (ds : List Nat) : Nat := ds.foldl (fun a d => 10 * a + d) 0

/-- Parse a JSON number token.  Integers only: a fraction or exponent
part makes the model parser fail (floats are outside the message model).
Leading zeros are rejected as in the JSON grammar. -/
def parseNumber (s : List Char) : Option (Json × List Char) :=
  let neg := s.head?.any (fun c => c.toNat = 45)
  let s1 := if neg then s.tail else s
  let p := takeDigits s1
  match p.1 with
  | [] => none
  | d :: ds =>
    if d = 0 ∧ ds ≠ [] then none
    else if p.2.head?.any (fun c => c.toNat = 46 || c.toNat = 101 || c.toNat = 69) then none
    else
      let v : Int := digitsVal (d :: ds)
      some (Json.int (if neg then -v else v), p.2)

/-- Does the input start (after whitespace) with this keyword? -/
def stripPrefixChars (p s : List Char) : Option (List Char) :=
  match p, s with
  | [], s => some s
  | _ :: _, [] => none
  | a :: p', b :: s' => if a = b then stripPrefixChars p' s' else none

mutual

/-- Parse one JSON value (with leading whitespace), returning the value
and the unconsumed rest.  The fuel argument only bounds the nesting
depth; `loads` supplies more than any input can need. -/
def parseVal : Nat → List Char → Option (Json × List Char)
  | 0, _ => none
  | fuel + 1, s =>
    match skipWs s with
    | [] => none
    | c :: cs =>
      if c.toNat = 34 then
        (parseStringBody (cs.length + 1) cs).map (fun p => (Json.str p.1, p.2))
      else if c.toNat = 91 then
        match skipWs cs with
        | d :: ds =>
          if d.toNat = 93 then some (Json.arr [], ds)
          else (parseArrItems fuel (d :: ds)).map (fun p => (Json.arr p.1, p.2))
        | [] => none
      else if c.toNat = 123 then
        match skipWs cs with
        | d :: ds =>
          if d.toNat = 125 then some (Json.obj [], ds)
          else (parseObjItems fuel (d :: ds)).map
            (fun p => (Json.obj (adictOf p.1), p.2))
        | [] => none
      else if c.toNat = 110 then
        (stripPrefixChars (Char.ofNat 117 :: Char.ofNat 108 :: [Char.ofNat 108]) cs).map
          (fun r => (Json.null, r))
      else if c.toNat = 116 then
        (stripPrefixChars (Char.ofNat 114 :: Char.ofNat 117 :: [Char.ofNat 101]) cs).map
          (fun r => (Json.bool true, r))
      else if c.toNat = 102 then
        (stripPrefixChars
            (Char.ofNat 97 :: Char.ofNat 108 :: Char.ofNat 115 :: [Char.ofNat 101]) cs).map
          (fun r => (Json.bool false, r))
      else if c.toNat = 45 || isDigit c then parseNumber (c :: cs)
      else none

/-- Parse the non-empty element list of an array, up to and including the
closing bracket. -/
def parseArrItems : Nat → List Char → Option (List Json × List Char)
  | 0, _ => none
  | fuel + 1, s =>
    (parseVal fuel s).bind (fun p =>
      match skipWs p.2 with
      | c :: cs =>
        if c.toNat = 44 then
          (parseArrItems fuel cs).map (fun q => (p.1 :: q.1, q.2))
        else if c.toNat = 93 then some ([p.1], cs)
        else none
      | [] => none)

/-- Parse the non-empty field list of an object, up to and including the
closing brace.  Duplicate keys are resolved by `adictOf` at the
`Json.obj` construction site, as CPython's scanner does. -/
def parseObjItems : Nat → List Char → Option (List (List Char × Json) × List Char)
  | 0, _ => none
  | fuel + 1, s =>
    match skipWs s with
    | c :: cs =>
      if c.toNat = 34 then
        (parseStringBody (cs.length + 1) cs).bind (fun pk =>
          match skipWs pk.2 with
          | d :: ds =>
            if d.toNat = 58 then
              (parseVal fuel ds).bind (fun pv =>
                match skipWs pv.2 with
                | e :: es =>
                  if e.toNat = 44 then
                    (parseObjItems fuel es).map (fun q => ((pk.1, pv.1) :: q.1, q.2))
                  else if e.toNat = 125 then some ([(pk.1, pv.1)], es)
                  else none
                | [] => none)
            else none
          | [] => none)
      else none
    | [] => none

end

/-- `json.loads`: parse a complete JSON document; trailing non-whitespace
input is an error. -/
def loads (s : List Char) : Option Json :=
  (parseVal (2 * s.length + 2) s).bind
    (fun p => if skipWs p.2 = [] then some p.1 else none)

/-! ## UTF-8: `str.encode('utf-8')` and `bytes.decode('utf-8', errors='replace')`

The transport keeps its read buffer as `bytes` but does all framing work
on the `str` obtained by decoding it with `errors='replace'`, re-encoding
the remainder after each extracted message.  `utf8Decode` follows
CPython's replacement policy: each maximal subpart of an ill-formed
sequence is replaced by one U+FFFD. -/

/-- UTF-8 encoding of one Unicode scalar value. -/
def utf8EncodeChar (n : Nat) : List Nat :=
  if n < 128 then [n]
  else if n < 2048 then [192 + n / 64, 128 + n % 64]
  else if n < 65536 then [224 + n / 4096, 128 + n / 64 % 64, 128 + n % 64]
  else [240 + n / 262144, 128 + n / 4096 % 64, 128 + n / 64 % 64, 128 + n % 64]

/-- `str.encode('utf-8')`. -/
def utf8Encode (s : List Char) : List Nat :=
  (s.map (fun c => utf8EncodeChar c.toNat)).flatten

/-- Is `b` a UTF-8 continuation byte? -/
def isCont (b : Nat) : Bool := 128 ≤ b && b ≤ 191

/-- The replacement character U+FFFD. -/
def replChar : Char := Char.ofNat 65533

/-- Valid range of the second byte of a three-byte sequence, which
depends on the lead byte (overlong and surrogate encodings excluded). -/
def valid3Second (lead b : Nat) : Bool :=
  if lead = 224 then 160 ≤ b && b ≤ 191
  else if lead = 237 then 128 ≤ b && b ≤ 159
  else isCont b

/-- Valid range of the second byte of a four-byte sequence. -/
def valid4Second (lead b : Nat) : Bool :=
  if lead = 240 then 144 ≤ b && b ≤ 191
  else if lead = 244 then 128 ≤ b && b ≤ 143
  else isCont b

/-- `bytes.decode('utf-8', errors='replace')`: well-formed sequences are
decoded, each maximal subpart of an ill-formed sequence becomes one
U+FFFD. -/
def utf8Decode : List Nat → List Char
  | [] => []
  | b :: bs =>
    if b < 128 then Char.ofNat b :: utf8Decode bs
    else if 194 ≤ b ∧ b ≤ 223 then
      match bs with
      | [] => [replChar]
      | b1 :: bs1 =>
        if isCont b1 then Char.ofNat ((b - 192) * 64 + (b1 - 128)) :: utf8Decode bs1
        else replChar :: utf8Decode (b1 :: bs1)
    else if 224 ≤ b ∧ b ≤ 239 then
      match bs with
      | [] => [replChar]
      | b1 :: bs1 =>
        if valid3Second b b1 then
          match bs1 with
          | [] => [replChar]
          | b2 :: bs2 =>
            if isCont b2 then
              Char.ofNat ((b - 224) * 4096 + (b1 - 128) * 64 + (b2 - 128)) :: utf8Decode bs2
            else replChar :: utf8Decode (b2 :: bs2)
        else replChar :: utf8Decode (b1 :: bs1)
    else if 240 ≤ b ∧ b ≤ 244 then
      match bs with
      | [] => [replChar]
      | b1 :: bs1 =>
        if valid4Second b b1 then
          match bs1 with
          | [] => [replChar]
          | b2 :: bs2 =>
            if isCont b2 then
              match bs2 with
              | [] => [replChar]
              | b3 :: bs3 =>
                if isCont b3 then
                  Char.ofNat
                      ((b - 240) * 262144 + (b1 - 128) * 4096 + (b2 - 128) * 64 + (b3 - 128))
                    :: utf8Decode bs3
                else replChar :: utf8Decode (b3 :: bs3)
            else replChar :: utf8Decode (b2 :: bs2)
        else replChar :: utf8Decode (b1 :: bs1)
    else replChar :: utf8Decode bs

/-! ## The stdio transport (`src/mcp/transport.py`)

`StdioTransport._process_buffer` decodes the whole byte buffer to a `str`
with `errors='replace'`, then loops: `re.search` for the header pattern
`Content-Length: (\d+)\r\n\r\n`, compare `header_end + content_length`
against the **character** length of the decoded string, slice the message
out by characters, re-encode the remainder into `self._read_buffer`,
`json.loads` + `onmessage` the message (decode errors go to `onerror`),
and — inside the same loop — recursively call `_process_buffer()` when
the remaining buffer is non-empty.

The recursion and the surrounding `while` both reprocess the remainder,
so the model threads the shared byte buffer through both, in program
order: extract, update shared buffer, dispatch, recurse, continue loop on
the (now stale) local string.  Fuel only rules out non-termination of the
model; `processBuffer` supplies far more than any input can consume. -/

/-- The literal part of the header pattern. -/
def headerLit : List Char := "Content-Length: ".data

/-- CRLF CRLF, the end of the header. -/
def crlf2 : List Char := [Char.ofNat 13, Char.ofNat 10, Char.ofNat 13, Char.ofNat 10]

/-- Try to match `Content-Length: (\d+)\r\n\r\n` at the start of `s`,
returning the parsed length and the number of characters matched.  The
greedy `(\d+)` takes the maximal digit run; fewer digits cannot match
because a digit is never `\r`. -/
def matchHeaderAt (s : List Char) : Option (Nat × Nat) :=
  match stripPrefixChars headerLit s with
  | none => none
  | some s1 =>
    let p := takeDigits s1
    match p.1 with
    | [] => none
    | _ :: _ =>
      match stripPrefixChars crlf2 p.2 with
      | none => none
      | some _ => some (digitsVal p.1, headerLit.length + p.1.length + 4)

/-- `re.search` for the header pattern: the match at the leftmost
position where one exists, as `(content_length, header_end)`. -/
def findHeader : List Char → Option (Nat × Nat)
  | [] => none
  | c :: cs =>
    match matchHeaderAt (c :: cs) with
    | some p => some p
    | none => (findHeader cs).map (fun p => (p.1, p.2 + 1))

mutual

/-- `StdioTransport._process_buffer`: decode the byte buffer and run the
header loop.  Returns the `onmessage` callback arguments in order and the
final value of `self._read_buffer`. -/
def processBufR : Nat → List Nat → List Json × List Nat
  | 0, buf => ([], buf)
  | fuel + 1, buf => procLoop fuel (utf8Decode buf) buf

/-- The `while True` body of `_process_buffer`; `bufferStr` is the local
`buffer_str` variable, `shared` the current `self._read_buffer`. -/
def procLoop : Nat → List Char → List Nat → List Json × List Nat
  | 0, _, shared => ([], shared)
  | fuel + 1, bufferStr, shared =>
    match findHeader bufferStr with
    | none => ([], shared)
    | some (contentLength, headerEnd) =>
      if bufferStr.length < headerEnd + contentLength then ([], shared)
      else
        let messageStr := (bufferStr.drop headerEnd).take contentLength
        let bufferStr2 := bufferStr.drop (headerEnd + contentLength)
        let shared1 := utf8Encode bufferStr2
        let msgs1 := match loads messageStr with | some m => [m] | none => []
        let rec1 := if 0 < shared1.length then processBufR fuel shared1 else ([], shared1)
        let rec2 := procLoop fuel bufferStr2 rec1.2
        (msgs1 ++ rec1.1 ++ rec2.1, rec2.2)

end

/-- `_process_buffer` with ample fuel (the call tree of the Python code
is finite but can be exponential in the number of framed messages; `2 ^
length` dominates it). -/
def processBuffer (buf : List Nat) : List Json × List Nat :=
  processBufR (2 ^ buf.length + 3) buf

/-- One iteration of `StdioTransport._read_loop` on a received chunk:
extend the read buffer, process it.  Returns the dispatched messages and
the new read buffer. -/
def feedChunk (buf chunk : List Nat) : List Json × List Nat :=
  processBuffer (buf ++ chunk)

/-- Feed a sequence of chunks through the read loop, collecting all
`onmessage` arguments. -/
def feedChunks (chunks : List (List Nat)) : List Json × List Nat :=
  chunks.foldl
    (fun acc chunk =>
      let r := feedChunk acc.2 chunk
      (acc.1 ++ r.1, r.2))
    ([], [])

/-- `StdioTransport.send`: the exact bytes written for a message —
`Content-Length: <len(json.dumps(message))>\r\n\r\n<body>`, UTF-8
encoded.  `len(content)` is the character length of the JSON text (equal
to its byte length, since `ensure_ascii=True` output is pure ASCII). -/
def sendBytes (message : Json) : List Nat :=
  utf8Encode (headerLit ++ natToDec (dumps message).length ++ crlf2 ++ dumps message)

/-! ## The dispatcher (`src/mcp/server.py`, class `McpServer`)

The server keeps three insertion-ordered dicts keyed by method name:
`_tools` (description + JSON schema, as sent to no one but stored),
`_handlers` (opaque callables) and `_validator_models` (pydantic model
classes).  A handler is an opaque Python callable: it either returns a
JSON-serializable result or raises; a validator model applied to keyword
arguments either returns a validated object whose `model_dump()` is a
dict, or raises `ValidationError` carrying a list of
`(location, message)` items rendered into `str(e)`. -/

/-- Outcome of calling an opaque Python collaborator: a returned value or
a raised exception carrying `str(e)`. -/
inductive PyOutcome (α : Type) : Type where
  | ok (value : α) : PyOutcome α
  | exn (msg : List Char) : PyOutcome α
deriving DecidableEq

/-- A pydantic validation error item: the error location (a path of field
names, rendered dot-joined by `str(e)`) and its message. -/
abbrev VErrorItem : Type := List (List Char) × List Char

/-- `str(e)` of a `ValidationError`: one block per item, the dot-joined
location then an indented message, as pydantic renders them (the
surrounding counts/URL boilerplate of the real rendering carries no
information and is elided). -/
def renderVErrors (errors : List VErrorItem) : List Char :=
  (errors.map (fun it =>
    (it.1.intersperse ".".data).flatten ++ Char.ofNat 10 :: Char.ofNat 32 :: Char.ofNat 32 ::
      it.2 ++ [Char.ofNat 10])).flatten

/-- A validator model, as used by `_handle_request`: applied to the
params dict it yields the `model_dump()` dict of the validated object, or
the `ValidationError` items. -/
abbrev Validator : Type :=
  List (List Char × Json) → Except (List VErrorItem) (List (List Char × Json))

instance {ε α : Type} [DecidableEq ε] [DecidableEq α] : DecidableEq (Except ε α) :=
  fun x y =>
    match x, y with
    | Except.ok a, Except.ok b =>
      if h : a = b then isTrue (by rw [h])
      else isFalse (by intro hc; cases hc; exact h rfl)
    | Except.error a, Except.error b =>
      if h : a = b then isTrue (by rw [h])
      else isFalse (by intro hc; cases hc; exact h rfl)
    | Except.ok _, Except.error _ => isFalse (by intro hc; cases hc)
    | Except.error _, Except.ok _ => isFalse (by intro hc; cases hc)

/-- The `McpServer` state: name, version, and the three registries. -/
structure McpServer : Type where
  name : List Char
  version : List Char
  tools : List (List Char × Json)
  handlers : List (List Char × (Json → PyOutcome Json))
  validatorModels : List (List Char × Validator)

/-- `McpServer.__init__`. -/
def mkMcpServer (name version : List Char) : McpServer :=
  { name := name, version := version, tools := [], handlers := [], validatorModels := [] }

/-- `McpServer.tool`: register a tool.  Each of the three dicts is
updated by plain assignment (no duplicate check); the validator dict only
when a validator model was passed. -/
def tool (s : McpServer) (method description : List Char) (schema : Json)
    (handler : Json → PyOutcome Json) (validatorModel : Option Validator) : McpServer :=
  { s with
    tools := ainsert s.tools method
      (Json.obj [("description".data, Json.str description),
                 ("parameters".data, schema)]),
    handlers := ainsert s.handlers method handler,
    validatorModels :=
      match validatorModel with
      | some v => ainsert s.validatorModels method v
      | none => s.validatorModels }

/-- `message.get(key)` on a dict's field list (`None` when absent). -/
def dictGet (fields : List (List Char × Json)) (key : List Char) : Json :=
  (alookup fields key).getD Json.null

/-- `message.get(key, default)`. -/
def dictGetD (fields : List (List Char × Json)) (key : List Char) (default : Json) : Json :=
  (alookup fields key).getD default

/-- Python `str()` of a message field, used in the f-string of the
method-not-found data.  For the non-`str` cases no claim inspects the
text; container `repr` quoting is not reproduced in detail. -/
def pyStr : Json → List Char
  | Json.null => "None".data
  | Json.bool true => "True".data
  | Json.bool false => "False".data
  | Json.int n => intToDec n
  | Json.str s => s
  | v => dumps v

/-- `McpServer._send_error`: the error-response object passed to
`transport.send`. -/
def sendError (requestId : Json) (code : Int) (message : List Char) (data : Option Json) :
    Json :=
  Json.obj
    [("id".data, requestId),
     ("type".data, Json.str "response".data),
     ("status".data, Json.str "error".data),
     ("error".data, Json.obj
       ([("code".data, Json.int code), ("message".data, Json.str message)] ++
        match data with
        | some d => [("data".data, d)]
        | none => []))]

/-- `McpServer._respond_to_ping`: the success-response object sent for a
ping, echoing the id and listing `self._tools`' keys as capabilities. -/
def respondToPing (s : McpServer) (fields : List (List Char × Json)) : Json :=
  Json.obj
    [("id".data, dictGet fields "id".data),
     ("type".data, Json.str "response".data),
     ("status".data, Json.str "success".data),
     ("result".data, Json.obj
       [("id".data, dictGet fields "id".data),
        ("name".data, Json.str s.name),
        ("version".data, Json.str s.version),
        ("capabilities".data, Json.arr (s.tools.map (fun kv => Json.str kv.1)))])]

/-- What one dispatch did: the (unchanged) server state, the messages
passed to `transport.send` in order, the registered-handler invocations
in order with the params object each received, and — when an exception
escaped the dispatch boundary into the read loop — its description. -/
structure DispatchResult : Type where
  state : McpServer
  sent : List Json
  handlerCalls : List (List Char × Json)
  crashed : Option (List Char)

/-- The handler-invocation tail of `_handle_request`: call the handler
inside `try`, send a success response on return, a `-32603` error
response on any raised exception. -/
def invokeHandler (s : McpServer) (m : List Char) (requestId params : Json) :
    DispatchResult :=
  match alookup s.handlers m with
  | some handler =>
    match handler params with
    | PyOutcome.ok result =>
      { state := s,
        sent := [Json.obj
          [("id".data, requestId),
           ("type".data, Json.str "response".data),
           ("status".data, Json.str "success".data),
           ("result".data, result)]],
        handlerCalls := [(m, params)], crashed := none }
    | PyOutcome.exn e =>
      { state := s,
        sent := [sendError requestId (-32603) "Internal error".data (some (Json.str e))],
        handlerCalls := [(m, params)], crashed := none }
  | none =>
    { state := s, sent := [], handlerCalls := [], crashed := some "KeyError".data }

/-- `McpServer._handle_request`. -/
def handleRequest (s : McpServer) (fields : List (List Char × Json)) : DispatchResult :=
  let requestId := dictGet fields "id".data
  let method := dictGet fields "method".data
  let params := dictGetD fields "params".data (Json.obj [])
  match method with
  | Json.str m =>
    match alookup s.tools m with
    | none =>
      { state := s,
        sent := [sendError requestId (-32601) "Method not found".data
          (some (Json.str ("Method '".data ++ m ++ "' not found".data)))],
        handlerCalls := [], crashed := none }
    | some _ =>
      match alookup s.validatorModels m with
      | some validatorModel =>
        match params with
        | Json.obj paramFields =>
          match validatorModel paramFields with
          | Except.error e =>
            { state := s,
              sent := [sendError requestId (-32602) "Invalid params".data
                (some (Json.str (renderVErrors e)))],
              handlerCalls := [], crashed := none }
          | Except.ok dumped => invokeHandler s m requestId (Json.obj dumped)
        | _ =>
          { state := s, sent := [], handlerCalls := [],
            crashed := some "TypeError: argument after ** must be a mapping".data }
      | none => invokeHandler s m requestId params
  | _ =>
    { state := s,
      sent := [sendError requestId (-32601) "Method not found".data
        (some (Json.str ("Method '".data ++ pyStr method ++ "' not found".data)))],
      handlerCalls := [], crashed := none }

/-- `McpServer._handle_message`: pings and requests are dispatched, any
other `type` (or a missing one) is silently ignored.  A non-dict message
makes `message.get` raise (`AttributeError`), escaping into the read
loop. -/
def handleMessage (s : McpServer) (message : Json) : DispatchResult :=
  match message with
  | Json.obj fields =>
    if dictGet fields "type".data = Json.str "ping".data then
      { state := s, sent := [respondToPing s fields], handlerCalls := [], crashed := none }
    else if dictGet fields "type".data = Json.str "request".data then
      handleRequest s fields
    else
      { state := s, sent := [], handlerCalls := [], crashed := none }
  | _ =>
    { state := s, sent := [], handlerCalls := [],
      crashed := some "AttributeError".data }

/-- Run the dispatcher over a sequence of messages, threading the server
state and collecting everything sent. -/
def serverRun (s : McpServer) (messages : List Json) :
    McpServer × List Json × List (List Char × Json) :=
  messages.foldl
    (fun acc msg =>
      let r := handleMessage acc.1 msg
      (r.state, acc.2.1 ++ r.sent, acc.2.2 ++ r.handlerCalls))
    (s, [], [])

/-! ## Parameter schemas (`src/tools/parameters.py`)

Each tool's pydantic model is embedded as a list of field descriptions:
`(name, type, required, default)`.  Validation follows pydantic v2 on the
types these models use: a missing required field, a wrong-typed value or
an out-of-range enum literal is collected as an error (all errors are
collected, with dot-joined locations); on success `model_dump()` yields a
dict with **every** declared field, the omitted optional ones carrying
their declared defaults.  Cross-type lax coercions (e.g. numeric strings
for `int` fields) are not reproduced; no claim depends on them. -/

/-- A field type of the parameter models: `str`, `int`, `bool`, `float`
(accepting integer input), `Dict` (any object), a string enum, an
`Optional`, a `List` (optionally with `max_items`), or a nested model
given by its own field list `(name, type, required, default)`. -/
inductive FType : Type where
  | fstr : FType
  | fint : FType
  | fbool : FType
  | fnum : FType
  | fdictAny : FType
  | fenum (lits : List (List Char)) : FType
  | fopt (t : FType) : FType
  | flist (t : FType) : FType
  | flistMax (t : FType) (maxItems : Nat) : FType
  | fobj (fields : List (List Char × FType × Bool × Json)) : FType

/-- Prefix a location step onto every error of a nested validation. -/
def prefixLoc (step : List Char) (errors : List VErrorItem) : List VErrorItem :=
  errors.map (fun it => (step :: it.1, it.2))

mutual

/-- Size of a field type (for the validator's fuel). -/
def ftypeSize : FType → Nat
  | FType.fopt t => ftypeSize t + 1
  | FType.flist t => ftypeSize t + 1
  | FType.flistMax t _ => ftypeSize t + 1
  | FType.fobj fields => fspecSize fields + 1
  | _ => 1

/-- Size of a field list (for the validator's fuel). -/
def fspecSize : List (List Char × FType × Bool × Json) → Nat
  | [] => 1
  | (_, t, _, _) :: fs => ftypeSize t + fspecSize fs + 1

end

mutual

/-- Size of a JSON value (for the validator's fuel). -/
def jsonSize : Json → Nat
  | Json.arr xs => jsonListSize xs + 1
  | Json.obj kvs => jsonObjSize kvs + 1
  | _ => 1

/-- Size of a JSON array (for the validator's fuel). -/
def jsonListSize : List Json → Nat
  | [] => 1
  | x :: xs => jsonSize x + jsonListSize xs + 1

/-- Size of a JSON object field list (for the validator's fuel). -/
def jsonObjSize : List (List Char × Json) → Nat
  | [] => 1
  | (_, v) :: kvs => jsonSize v + jsonObjSize kvs + 1

end

mutual

/-- Validate one value against a field type, returning its dumped form.
Every recursive call strictly decreases the combined schema+value size,
so the fuel `mkValidator` supplies is never exhausted; fuel only keeps
the definitions kernel-reducible. -/
def validateType : Nat → FType → Json → Except (List VErrorItem) Json
  | 0, _, _ => Except.error [([], "recursion limit".data)]
  | _ + 1, FType.fstr, Json.str s => Except.ok (Json.str s)
  | _ + 1, FType.fstr, _ => Except.error [([], "Input should be a valid string".data)]
  | _ + 1, FType.fint, Json.int n => Except.ok (Json.int n)
  | _ + 1, FType.fint, _ => Except.error [([], "Input should be a valid integer".data)]
  | _ + 1, FType.fbool, Json.bool b => Except.ok (Json.bool b)
  | _ + 1, FType.fbool, _ => Except.error [([], "Input should be a valid boolean".data)]
  | _ + 1, FType.fnum, Json.int n => Except.ok (Json.int n)
  | _ + 1, FType.fnum, _ => Except.error [([], "Input should be a valid number".data)]
  | _ + 1, FType.fdictAny, Json.obj kvs => Except.ok (Json.obj kvs)
  | _ + 1, FType.fdictAny, _ =>
      Except.error [([], "Input should be a valid dictionary".data)]
  | _ + 1, FType.fenum lits, Json.str s =>
      if s ∈ lits then Except.ok (Json.str s)
      else Except.error [([], "Input should be one of the permitted values".data)]
  | _ + 1, FType.fenum _, _ =>
      Except.error [([], "Input should be one of the permitted values".data)]
  | _ + 1, FType.fopt _, Json.null => Except.ok Json.null
  | fuel + 1, FType.fopt t, v => validateType fuel t v
  | fuel + 1, FType.flist t, Json.arr xs => (validateList fuel t 0 xs).map Json.arr
  | _ + 1, FType.flist _, _ => Except.error [([], "Input should be a valid list".data)]
  | fuel + 1, FType.flistMax t maxItems, Json.arr xs =>
      if xs.length ≤ maxItems then (validateList fuel t 0 xs).map Json.arr
      else Except.error
        [([], "List should have at most the permitted number of items".data)]
  | _ + 1, FType.flistMax _ _, _ =>
      Except.error [([], "Input should be a valid list".data)]
  | fuel + 1, FType.fobj fields, Json.obj kvs => (validateFields fuel fields kvs).map Json.obj
  | _ + 1, FType.fobj _, _ =>
      Except.error [([], "Input should be a valid dictionary".data)]

/-- Validate every element of a list, locations carrying the index. -/
def validateList : Nat → FType → Nat → List Json → Except (List VErrorItem) (List Json)
  | 0, _, _, _ => Except.error [([], "recursion limit".data)]
  | _ + 1, _, _, [] => Except.ok []
  | fuel + 1, t, i, x :: xs =>
    match validateType fuel t x, validateList fuel t (i + 1) xs with
    | Except.ok v, Except.ok vs => Except.ok (v :: vs)
    | Except.ok _, Except.error es => Except.error es
    | Except.error e, Except.ok _ => Except.error (prefixLoc (natToDec i) e)
    | Except.error e, Except.error es => Except.error (prefixLoc (natToDec i) e ++ es)

/-- Validate a params dict against a model's fields, in field order:
collect every error; on success produce the `model_dump()` field list
(all declared fields, defaults materialised, extra input ignored). -/
def validateFields :
    Nat → List (List Char × FType × Bool × Json) → List (List Char × Json) →
      Except (List VErrorItem) (List (List Char × Json))
  | 0, _, _ => Except.error [([], "recursion limit".data)]
  | _ + 1, [], _ => Except.ok []
  | fuel + 1, (fname, ft, required, default) :: fs, kvs =>
    let head : Except (List VErrorItem) Json :=
      match alookup kvs fname with
      | some v =>
        match validateType fuel ft v with
        | Except.ok d => Except.ok d
        | Except.error e => Except.error (prefixLoc fname e)
      | none =>
        if required then Except.error [([fname], "Field required".data)]
        else Except.ok default
    match head, validateFields fuel fs kvs with
    | Except.ok d, Except.ok ds => Except.ok ((fname, d) :: ds)
    | Except.ok _, Except.error es => Except.error es
    | Except.error e, Except.ok _ => Except.error e
    | Except.error e, Except.error es => Except.error (e ++ es)

end

/-- The validator-model callable built from a field list (what
`validator_model(**params).model_dump()` does). -/
def mkValidator (fields : List (List Char × FType × Bool × Json)) : Validator :=
  fun kvs => validateFields (fspecSize fields + jsonObjSize kvs + 1) fields kvs

/-! ## The capability catalog (`src/tools/definitions.py`)

Each `Tool` carries its method name, display name, governing
`(resource-group, action)` pairs and the field list of its pydantic
parameter model.  The prompt text (`description`) is context-dependent
collaborator data and is supplied to the registration as an opaque
function, as is the pydantic `.schema()` JSON and the `PayPalClient`. -/

/-- A required field: `name: T = Field(...)`. -/
def reqF (n : String) (t : FType) : List Char × FType × Bool × Json :=
  (n.data, t, true, Json.null)

/-- An optional field with default `None`: `name: Optional[T] = Field(None)`. -/
def optF (n : String) (t : FType) : List Char × FType × Bool × Json :=
  (n.data, FType.fopt t, false, Json.null)

/-- An optional field with an explicit default: `name: Optional[T] = Field(d)`. -/
def optD (n : String) (t : FType) (d : Json) : List Char × FType × Bool × Json :=
  (n.data, FType.fopt t, false, d)

/-- `UnitAmount`. -/
def unitAmountM : List (List Char × FType × Bool × Json) :=
  [reqF "currency_code" FType.fstr, reqF "value" FType.fstr]

/-- `Tax`. -/
def taxM : List (List Char × FType × Bool × Json) :=
  [optF "name" FType.fstr, optF "percent" FType.fstr]

/-- `InvoiceItem`. -/
def invoiceItemM : List (List Char × FType × Bool × Json) :=
  [reqF "name" FType.fstr, reqF "quantity" FType.fstr,
   reqF "unit_amount" (FType.fobj unitAmountM), optF "tax" (FType.fobj taxM),
   optF "unit_of_measure" (FType.fenum ["QUANTITY".data, "HOURS".data, "AMOUNT".data])]

/-- `InvoiceDetail`. -/
def invoiceDetailM : List (List Char × FType × Bool × Json) :=
  [optF "invoice_date" FType.fstr, reqF "currency_code" FType.fstr]

/-- `InvoicerName` (also `RecipientName`). -/
def invoicerNameM : List (List Char × FType × Bool × Json) :=
  [optF "given_name" FType.fstr, optF "surname" FType.fstr]

/-- `Invoicer`. -/
def invoicerM : List (List Char × FType × Bool × Json) :=
  [reqF "business_name" FType.fstr, reqF "name" (FType.fobj invoicerNameM),
   optF "email_address" FType.fstr]

/-- `BillingInfo`. -/
def billingInfoM : List (List Char × FType × Bool × Json) :=
  [optF "name" (FType.fobj invoicerNameM), optF "email_address" FType.fstr]

/-- `Recipient`. -/
def recipientM : List (List Char × FType × Bool × Json) :=
  [optF "billing_info" (FType.fobj billingInfoM)]

/-- `CreateInvoiceParameters`. -/
def createInvoiceP : List (List Char × FType × Bool × Json) :=
  [reqF "detail" (FType.fobj invoiceDetailM), optF "invoicer" (FType.fobj invoicerM),
   optF "primary_recipients" (FType.flist (FType.fobj recipientM)),
   optF "items" (FType.flist (FType.fobj invoiceItemM))]

/-- `GetInvoiceParameters`. -/
def getInvoiceP : List (List Char × FType × Bool × Json) :=
  [reqF "invoice_id" FType.fstr]

/-- `ListInvoicesParameters`. -/
def listInvoicesP : List (List Char × FType × Bool × Json) :=
  [optD "page" FType.fint (Json.int 1), optD "page_size" FType.fint (Json.int 100),
   optF "total_required" FType.fbool]

/-- `SendInvoiceParameters`. -/
def sendInvoiceP : List (List Char × FType × Bool × Json) :=
  [reqF "invoice_id" FType.fstr, optF "note" FType.fstr,
   optF "send_to_recipient" FType.fbool,
   optF "additional_recipients" (FType.flist FType.fstr)]

/-- `SendInvoiceReminderParameters`. -/
def sendInvoiceReminderP : List (List Char × FType × Bool × Json) :=
  [reqF "invoice_id" FType.fstr, optF "subject" FType.fstr, optF "note" FType.fstr,
   optF "additional_recipients" (FType.flist FType.fstr)]

/-- `CancelSentInvoiceParameters`. -/
def cancelSentInvoiceP : List (List Char × FType × Bool × Json) :=
  [reqF "invoice_id" FType.fstr, optF "note" FType.fstr,
   optF "send_to_recipient" FType.fbool,
   optF "additional_recipients" (FType.flist FType.fstr)]

/-- `GenerateInvoiceQrCodeParameters`. -/
def generateInvoiceQrCodeP : List (List Char × FType × Bool × Json) :=
  [reqF "invoice_id" FType.fstr, reqF "width" FType.fint, reqF "height" FType.fint]

/-- `CreateProductParameters`. -/
def createProductP : List (List Char × FType × Bool × Json) :=
  [reqF "name" FType.fstr,
   reqF "type" (FType.fenum ["PHYSICAL".data, "DIGITAL".data, "SERVICE".data]),
   optF "description" FType.fstr, optF "category" FType.fstr,
   optF "image_url" FType.fstr, optF "home_url" FType.fstr]

/-- `ListProductsParameters`. -/
def listProductsP : List (List Char × FType × Bool × Json) :=
  [optF "page" FType.fint, optF "page_size" FType.fint, optF "total_required" FType.fbool]

/-- `ShowProductDetailsParameters`. -/
def showProductDetailsP : List (List Char × FType × Bool × Json) :=
  [reqF "product_id" FType.fstr]

/-- `UpdateProductParameters`. -/
def updateProductP : List (List Char × FType × Bool × Json) :=
  [reqF "product_id" FType.fstr, reqF "operations" (FType.flist FType.fdictAny)]

/-- `Frequency`. -/
def frequencyM : List (List Char × FType × Bool × Json) :=
  [reqF "interval_unit" (FType.fenum ["DAY".data, "WEEK".data, "MONTH".data, "YEAR".data]),
   reqF "interval_count" FType.fint]

/-- `FixedPrice`. -/
def fixedPriceM : List (List Char × FType × Bool × Json) :=
  [reqF "currency_code" (FType.fenum ["USD".data]), reqF "value" FType.fstr]

/-- `PricingScheme`. -/
def pricingSchemeM : List (List Char × FType × Bool × Json) :=
  [optF "fixed_price" (FType.fobj fixedPriceM), optF "version" FType.fstr]

/-- `BillingCycle`. -/
def billingCycleM : List (List Char × FType × Bool × Json) :=
  [reqF "frequency" (FType.fobj frequencyM),
   reqF "tenure_type" (FType.fenum ["REGULAR".data, "TRIAL".data]),
   reqF "sequence" FType.fint, optF "total_cycles" FType.fint,
   reqF "pricing_scheme" (FType.fobj pricingSchemeM)]

/-- `SetupFee`. -/
def setupFeeM : List (List Char × FType × Bool × Json) :=
  [optF "currency_code" (FType.fenum ["USD".data]), optF "value" FType.fstr]

/-- `PaymentPreferences`. -/
def paymentPreferencesM : List (List Char × FType × Bool × Json) :=
  [optF "auto_bill_outstanding" FType.fbool, optF "setup_fee" (FType.fobj setupFeeM),
   optF "setup_fee_failure_action" (FType.fenum ["CONTINUE".data, "CANCEL".data]),
   optF "payment_failure_threshold" FType.fint]

/-- `Taxes`. -/
def taxesM : List (List Char × FType × Bool × Json) :=
  [optF "percentage" FType.fstr, optF "inclusive" FType.fbool]

/-- `CreateSubscriptionPlanParameters`. -/
def createSubscriptionPlanP : List (List Char × FType × Bool × Json) :=
  [reqF "product_id" FType.fstr, reqF "name" FType.fstr, optF "description" FType.fstr,
   reqF "billing_cycles" (FType.flist (FType.fobj billingCycleM)),
   optF "payment_preferences" (FType.fobj paymentPreferencesM),
   optF "taxes" (FType.fobj taxesM)]

/-- `ListSubscriptionPlansParameters`. -/
def listSubscriptionPlansP : List (List Char × FType × Bool × Json) :=
  [optF "product_id" FType.fstr, optF "page" FType.fint, optF "page_size" FType.fint,
   optF "total_required" FType.fbool]

/-- `ShowSubscriptionPlanDetailsParameters`. -/
def showSubscriptionPlanDetailsP : List (List Char × FType × Bool × Json) :=
  [reqF "plan_id" FType.fstr]

/-- `Name`. -/
def nameM : List (List Char × FType × Bool × Json) :=
  [reqF "given_name" FType.fstr, optF "surname" FType.fstr]

/-- `Address`. -/
def addressM : List (List Char × FType × Bool × Json) :=
  [reqF "address_line_1" FType.fstr, optF "address_line_2" FType.fstr,
   reqF "admin_area_1" FType.fstr, reqF "admin_area_2" FType.fstr,
   reqF "postal_code" FType.fstr, reqF "country_code" (FType.fenum ["US".data])]

/-- `ShippingAddress`. -/
def shippingAddressM : List (List Char × FType × Bool × Json) :=
  [reqF "name" (FType.fobj nameM), reqF "address" (FType.fobj addressM)]

/-- `PaymentMethod`. -/
def paymentMethodM : List (List Char × FType × Bool × Json) :=
  [reqF "payer_selected" (FType.fenum ["PAYPAL".data, "CREDIT_CARD".data]),
   optF "payee_preferred"
     (FType.fenum ["IMMEDIATE_PAYMENT_REQUIRED".data, "INSTANT_FUNDING_SOURCE".data])]

/-- `ShippingAmount`. -/
def shippingAmountM : List (List Char × FType × Bool × Json) :=
  [reqF "currency_code" (FType.fenum ["USD".data]), reqF "value" FType.fstr]

/-- `Subscriber`. -/
def subscriberM : List (List Char × FType × Bool × Json) :=
  [reqF "name" (FType.fobj nameM), reqF "email_address" FType.fstr,
   optF "shipping_address" (FType.fobj shippingAddressM)]

/-- `ApplicationContext`. -/
def applicationContextM : List (List Char × FType × Bool × Json) :=
  [reqF "brand_name" FType.fstr, optF "locale" FType.fstr,
   optF "shipping_preference" (FType.fenum ["SET_PROVIDED_ADDRESS".data, "GET_FROM_FILE".data]),
   optF "user_action" (FType.fenum ["SUBSCRIBE_NOW".data, "CONTINUE".data]),
   reqF "return_url" FType.fstr, reqF "cancel_url" FType.fstr,
   reqF "payment_method" (FType.fobj paymentMethodM)]

/-- `CreateSubscriptionParameters`. -/
def createSubscriptionP : List (List Char × FType × Bool × Json) :=
  [reqF "plan_id" FType.fstr, optF "quantity" FType.fint,
   optF "shipping_amount" (FType.fobj shippingAmountM),
   reqF "subscriber" (FType.fobj subscriberM),
   optF "application_context" (FType.fobj applicationContextM)]

/-- `ShowSubscriptionDetailsParameters`. -/
def showSubscriptionDetailsP : List (List Char × FType × Bool × Json) :=
  [reqF "subscription_id" FType.fstr]

/-- `CancellationReason`. -/
def cancellationReasonM : List (List Char × FType × Bool × Json) :=
  [reqF "reason" FType.fstr]

/-- `CancelSubscriptionParameters`. -/
def cancelSubscriptionP : List (List Char × FType × Bool × Json) :=
  [reqF "subscription_id" FType.fstr, reqF "payload" (FType.fobj cancellationReasonM)]

/-- `CreateShipmentParameters`. -/
def createShipmentP : List (List Char × FType × Bool × Json) :=
  [optF "order_id" FType.fstr, reqF "tracking_number" FType.fstr,
   reqF "transaction_id" FType.fstr,
   optD "status"
     (FType.fenum ["ON_HOLD".data, "SHIPPED".data, "DELIVERED".data, "CANCELLED".data])
     (Json.str "SHIPPED".data),
   optF "carrier" FType.fstr]

/-- `GetShipmentTrackingParameters`. -/
def getShipmentTrackingP : List (List Char × FType × Bool × Json) :=
  [optF "order_id" FType.fstr, optF "transaction_id" FType.fstr]

/-- `OrderItem`. -/
def orderItemM : List (List Char × FType × Bool × Json) :=
  [reqF "name" FType.fstr, optD "quantity" FType.fint (Json.int 1),
   optF "description" FType.fstr, reqF "itemCost" FType.fnum,
   optD "taxPercent" FType.fnum (Json.int 0), reqF "itemTotal" FType.fnum]

/-- `ShippingAddressOrder`. -/
def shippingAddressOrderM : List (List Char × FType × Bool × Json) :=
  [optF "address_line_1" FType.fstr, optF "address_line_2" FType.fstr,
   optF "admin_area_2" FType.fstr, optF "admin_area_1" FType.fstr,
   optF "postal_code" FType.fstr, optF "country_code" FType.fstr]

/-- `CreateOrderParameters`. -/
def createOrderP : List (List Char × FType × Bool × Json) :=
  [reqF "currencyCode" (FType.fenum ["USD".data]),
   reqF "items" (FType.flistMax (FType.fobj orderItemM) 50),
   optD "discount" FType.fnum (Json.int 0), optD "shippingCost" FType.fnum (Json.int 0),
   optF "shippingAddress" (FType.fobj shippingAddressOrderM), optF "notes" FType.fstr,
   optD "returnUrl" FType.fstr (Json.str "https://example.com/returnUrl".data),
   optD "cancelUrl" FType.fstr (Json.str "https://example.com/cancelUrl".data)]

/-- `GetOrderParameters`. -/
def getOrderP : List (List Char × FType × Bool × Json) :=
  [reqF "id" FType.fstr]

/-- `CaptureOrderParameters`. -/
def captureOrderP : List (List Char × FType × Bool × Json) :=
  [reqF "id" FType.fstr]

/-- `ListDisputesParameters`. -/
def listDisputesP : List (List Char × FType × Bool × Json) :=
  [optF "disputed_transaction_id" FType.fstr,
   optF "dispute_state"
     (FType.fenum ["REQUIRED_ACTION".data, "REQUIRED_OTHER_PARTY_ACTION".data,
       "UNDER_PAYPAL_REVIEW".data, "RESOLVED".data, "OPEN_INQUIRIES".data,
       "APPEALABLE".data]),
   optD "page_size" FType.fint (Json.int 10), optD "page" FType.fint (Json.int 1)]

/-- `GetDisputeParameters`. -/
def getDisputeP : List (List Char × FType × Bool × Json) :=
  [reqF "dispute_id" FType.fstr]

/-- `AcceptDisputeClaimParameters`. -/
def acceptDisputeClaimP : List (List Char × FType × Bool × Json) :=
  [reqF "dispute_id" FType.fstr, reqF "note" FType.fstr]

/-- `ListTransactionsParameters`. -/
def listTransactionsP : List (List Char × FType × Bool × Json) :=
  [optF "transaction_id" FType.fstr,
   optF "transaction_status" (FType.fenum ["D".data, "P".data, "S".data, "V".data]),
   optF "start_date" FType.fstr, optF "end_date" FType.fstr,
   optD "page_size" FType.fint (Json.int 100), optD "page" FType.fint (Json.int 1)]

/-- One entry of the capability catalog (`definitions.Tool`; the prompt
text is opaque collaborator data, supplied separately at registration). -/
structure Tool : Type where
  method : List Char
  name : List Char
  actions : List (List Char × List (List Char × Bool))
  parameters : List (List Char × FType × Bool × Json)

/-- One `(resource-group, action)` declaration `{product: {action: True}}`. -/
def act1 (product action : String) : List (List Char × List (List Char × Bool)) :=
  [(product.data, [(action.data, true)])]

/-- `get_tools()`: the static catalog, in source order. -/
def getTools : List Tool :=
  [⟨"create_invoice".data, "Create Invoice".data, act1 "invoices" "create", createInvoiceP⟩,
   ⟨"list_invoices".data, "List Invoices".data, act1 "invoices" "list", listInvoicesP⟩,
   ⟨"get_invoice".data, "Get Invoice".data, act1 "invoices" "get", getInvoiceP⟩,
   ⟨"send_invoice".data, "Send Invoice".data, act1 "invoices" "send", sendInvoiceP⟩,
   ⟨"send_invoice_reminder".data, "Send Invoice Reminder".data,
     act1 "invoices" "sendReminder", sendInvoiceReminderP⟩,
   ⟨"cancel_sent_invoice".data, "Cancel Sent Invoice".data,
     act1 "invoices" "cancel", cancelSentInvoiceP⟩,
   ⟨"generate_invoice_qr_code".data, "Generate Invoice QR Code".data,
     act1 "invoices" "generateQRC", generateInvoiceQrCodeP⟩,
   ⟨"create_product".data, "Create Product".data, act1 "products" "create", createProductP⟩,
   ⟨"list_products".data, "List Products".data, act1 "products" "list", listProductsP⟩,
   ⟨"update_product".data, "Update Product".data, act1 "products" "update", updateProductP⟩,
   ⟨"show_product_details".data, "Show Product Details".data,
     act1 "products" "show", showProductDetailsP⟩,
   ⟨"create_subscription_plan".data, "Create Subscription Plan".data,
     act1 "subscriptionPlans" "create", createSubscriptionPlanP⟩,
   ⟨"list_subscription_plans".data, "List Subscription Plans".data,
     act1 "subscriptionPlans" "list", listSubscriptionPlansP⟩,
   ⟨"show_subscription_plan_details".data, "Show Subscription Plan Details".data,
     act1 "subscriptionPlans" "show", showSubscriptionPlanDetailsP⟩,
   ⟨"create_subscription".data, "Create Subscription".data,
     act1 "subscriptions" "create", createSubscriptionP⟩,
   ⟨"show_subscription_details".data, "Show Subscription Details".data,
     act1 "subscriptions" "show", showSubscriptionDetailsP⟩,
   ⟨"cancel_subscription".data, "Cancel Subscription".data,
     act1 "subscriptions" "cancel", cancelSubscriptionP⟩,
   ⟨"create_shipment".data, "Create Shipment".data, act1 "shipment" "create", createShipmentP⟩,
   ⟨"get_shipment_tracking".data, "Get Shipment Tracking".data,
     act1 "shipment" "get", getShipmentTrackingP⟩,
   ⟨"create_order".data, "Create Order".data, act1 "orders" "create", createOrderP⟩,
   ⟨"get_order".data, "Get Order".data, act1 "orders" "get", getOrderP⟩,
   ⟨"capture_order".data, "Capture Order".data, act1 "orders" "capture", captureOrderP⟩,
   ⟨"list_disputes".data, "List Disputes".data, act1 "disputes" "list", listDisputesP⟩,
   ⟨"get_dispute".data, "Get Dispute".data, act1 "disputes" "get", getDisputeP⟩,
   ⟨"accept_dispute_claim".data, "Accept Dispute Claim".data,
     act1 "disputes" "create", acceptDisputeClaimP⟩,
   ⟨"list_transactions".data, "List Transactions".data,
     act1 "transactions" "list", listTransactionsP⟩]

/-! ## The PayPal server (`PayPalMcpServer`) -/

/-- `PayPalMcpServer._is_tool_allowed`: true iff the configuration's
`actions` map marks at least one of the tool's declared
`(product, action)` pairs with a truthy value; absent products or actions
count as disabled.  (The tool's own declared flag is iterated over but
never consulted, exactly as in the source.) -/
def isToolAllowed (t : Tool) (actions : List (List Char × List (List Char × Bool))) : Bool :=
  t.actions.any (fun pa =>
    pa.2.any (fun ae =>
      match alookup actions pa.1 with
      | some productActions => (alookup productActions ae.1).getD false
      | none => false))

/-- `PayPalMcpServer._create_handler`: wrap `self.client.run` (opaque
HTTP collaborator, passed in as `clientRun`) into the MCP content
envelope; an exception raised by the client propagates to the dispatch
boundary. -/
def createHandler (clientRun : List Char → Json → PyOutcome (List Char))
    (method : List Char) : Json → PyOutcome Json :=
  fun params =>
    match clientRun method params with
    | PyOutcome.ok result =>
      PyOutcome.ok (Json.obj
        [("content".data, Json.arr
          [Json.obj [("type".data, Json.str "text".data), ("text".data, Json.str result)]])])
    | PyOutcome.exn e => PyOutcome.exn e

/-- `PayPalMcpServer._register_tools`: filter the catalog by the
configuration and register each allowed tool, always passing its
parameter model as the validator.  `descr` is the prompt text and
`schemaFn` the pydantic `.schema()` JSON — opaque collaborator data. -/
def registerTools (descr : List Char → List Char) (schemaFn : List Char → Json)
    (clientRun : List Char → Json → PyOutcome (List Char))
    (s : McpServer) (actions : List (List Char × List (List Char × Bool))) : McpServer :=
  getTools.foldl
    (fun st t =>
      if isToolAllowed t actions then
        tool st t.method (descr t.method) (schemaFn t.method)
          (createHandler clientRun t.method) (some (mkValidator t.parameters))
      else st)
    s

/-- `PayPalMcpServer.__init__` with `configuration["actions"] = actions`:
a `McpServer` named `PayPal`, version `0.4.0`, with the allowed tools
registered. -/
def paypalMcpServer (descr : List Char → List Char) (schemaFn : List Char → Json)
    (clientRun : List Char → Json → PyOutcome (List Char))
    (actions : List (List Char × List (List Char × Bool))) : McpServer :=
  registerTools descr schemaFn clientRun (mkMcpServer "PayPal".data "0.4.0".data) actions

/-! ## Concrete fixtures used by witnesses and counterexamples -/

/-- An opaque prompt-text collaborator: empty descriptions. -/
def noDescr : List Char → List Char := fun _ => []

/-- An opaque schema collaborator: empty schemas. -/
def noSchema : List Char → Json := fun _ => Json.obj []

/-- A `PayPalClient.run` stub that always returns the text `OK`. -/
def okClient : List Char → Json → PyOutcome (List Char) := fun _ _ => PyOutcome.ok "OK".data

/-- A `PayPalClient.run` stub that always raises `Exception("boom")`. -/
def boomClient : List Char → Json → PyOutcome (List Char) :=
  fun _ _ => PyOutcome.exn "boom".data

/-- A configuration enabling `invoices.list` and `invoices.get` only. -/
def cfgListGet : List (List Char × List (List Char × Bool)) :=
  [("invoices".data, [("list".data, true), ("get".data, true)])]

/-- The message `{"id": 1, "type": "ping"}`. -/
def pingMsg1 : Json := Json.obj [("id".data, Json.int 1), ("type".data, Json.str "ping".data)]

/-- The message `{"id": 2, "type": "ping"}`. -/
def pingMsg2 : Json := Json.obj [("id".data, Json.int 2), ("type".data, Json.str "ping".data)]

/-- A well-framed input whose header declares the exact UTF-8 **byte**
length (2) of the non-ASCII body `é` (`0xC3 0xA9`). -/
def eAcuteFrame : List Nat :=
  utf8Encode "Content-Length: 2".data ++ [13, 10, 13, 10] ++ [195, 169]

/-! ## Association-list lemmas -/

/-- `alookup` misses exactly the keys outside the list. -/
theorem alookup_eq_none {α : Type} (l : List (List Char × α)) (k : List Char) :
    alookup l k = none ↔ k ∉ l.map Prod.fst := by
  induction l with
  | nil => simp [alookup]
  | cons kv rest ih =>
    obtain ⟨k', v⟩ := kv
    by_cases h : k' = k
    · simp [alookup, h]
    · simp [alookup, h, ih, Ne.symm h]

/-- `ainsert` on an absent key appends. -/
theorem ainsert_of_none {α : Type} (l : List (List Char × α)) (k : List Char) (v : α) :
    alookup l k = none → ainsert l k v = l ++ [(k, v)] := by
  induction l with
  | nil => intro _; rfl
  | cons kv rest ih =>
    intro h
    obtain ⟨k', w⟩ := kv
    by_cases hk : k' = k
    · simp [alookup, hk] at h
    · simp only [ainsert, hk, if_false]
      rw [ih (by simpa [alookup, hk] using h)]
      simp

/-- `alookup` after `ainsert` at the inserted key. -/
theorem alookup_ainsert {α : Type} :
    ∀ (l : List (List Char × α)) (k : List Char) (v : α), alookup (ainsert l k v) k = some v
  | [], k, v => by simp [ainsert, alookup]
  | (k', w) :: rest, k, v => by
    by_cases hk : k' = k
    · simp [ainsert, alookup, hk]
    · simp [ainsert, alookup, hk, alookup_ainsert rest k v]

/-- `alookup` after `ainsert` at another key. -/
theorem alookup_ainsert_ne {α : Type} :
    ∀ (l : List (List Char × α)) (k k2 : List Char) (v : α), k ≠ k2 →
      alookup (ainsert l k v) k2 = alookup l k2
  | [], k, k2, v, h => by simp [ainsert, alookup, h]
  | (k', w) :: rest, k, k2, v, h => by
    by_cases hk : k' = k
    · subst hk
      simp [ainsert, alookup, h]
    · simp only [ainsert, hk, if_false, alookup]
      by_cases hk2 : k' = k2
      · simp [hk2]
      · simp [hk2, alookup_ainsert_ne rest k k2 v h]

/-- `alookup` distributes over append. -/
theorem alookup_append {α : Type} (l1 l2 : List (List Char × α)) (k : List Char) :
    alookup (l1 ++ l2) k = ((alookup l1 k).rec (alookup l2 k) (fun v => some v)) := by
  induction l1 with
  | nil => simp [alookup]
  | cons kv rest ih =>
    by_cases h : kv.1 = k
    · simp [alookup, h]
    · simp [alookup, h, ih]

/-! ## What `_register_tools` builds

The three registries of the PayPal server hold exactly the catalog's
allowed methods, in catalog order: registration appends (catalog methods
are pairwise distinct, so `ainsert` never updates). -/

/-- One loop iteration of `_register_tools`. -/
def registerStep (descr : List Char → List Char) (schemaFn : List Char → Json)
    (clientRun : List Char → Json → PyOutcome (List Char))
    (actions : List (List Char × List (List Char × Bool)))
    (st : McpServer) (t : Tool) : McpServer :=
  if isToolAllowed t actions then
    tool st t.method (descr t.method) (schemaFn t.method)
      (createHandler clientRun t.method) (some (mkValidator t.parameters))
  else st

/-- `registerTools` is the fold of `registerStep`. -/
theorem registerTools_eq_foldl (descr : List Char → List Char) (schemaFn : List Char → Json)
    (clientRun : List Char → Json → PyOutcome (List Char)) (s : McpServer)
    (actions : List (List Char × List (List Char × Bool))) :
    registerTools descr schemaFn clientRun s actions =
      getTools.foldl (registerStep descr schemaFn clientRun actions) s := rfl

/-- Folding `registerStep` over a duplicate-free tool list none of whose
methods is registered yet appends, to each of the three registries, the
allowed tools' methods in order (and keeps name and version). -/
theorem registerStep_foldl_keys (descr : List Char → List Char) (schemaFn : List Char → Json)
    (clientRun : List Char → Json → PyOutcome (List Char))
    (actions : List (List Char × List (List Char × Bool))) :
    ∀ (ts : List Tool) (s : McpServer),
      (∀ t ∈ ts, alookup s.tools t.method = none ∧ alookup s.handlers t.method = none ∧
        alookup s.validatorModels t.method = none) →
      List.Pairwise (fun a b => a.method ≠ b.method) ts →
      (ts.foldl (registerStep descr schemaFn clientRun actions) s).tools.map Prod.fst =
          s.tools.map Prod.fst ++
            (ts.filter (fun t => isToolAllowed t actions)).map Tool.method ∧
        (ts.foldl (registerStep descr schemaFn clientRun actions) s).handlers.map Prod.fst =
          s.handlers.map Prod.fst ++
            (ts.filter (fun t => isToolAllowed t actions)).map Tool.method ∧
        (ts.foldl (registerStep descr schemaFn clientRun actions) s).validatorModels.map
            Prod.fst =
          s.validatorModels.map Prod.fst ++
            (ts.filter (fun t => isToolAllowed t actions)).map Tool.method ∧
        (ts.foldl (registerStep descr schemaFn clientRun actions) s).name = s.name ∧
        (ts.foldl (registerStep descr schemaFn clientRun actions) s).version = s.version
  | [], s, _, _ => by simp
  | t :: ts, s, hfresh, hpair => by
    rw [List.foldl_cons]
    by_cases hallow : isToolAllowed t actions
    · have hs1 : registerStep descr schemaFn clientRun actions s t =
        { s with
          tools := s.tools ++
            [(t.method, Json.obj [("description".data, Json.str (descr t.method)),
              ("parameters".data, schemaFn t.method)])],
          handlers := s.handlers ++ [(t.method, createHandler clientRun t.method)],
          validatorModels := s.validatorModels ++
            [(t.method, mkValidator t.parameters)] } := by
        have h0 := hfresh t (by simp)
        simp only [registerStep, hallow, if_true, tool]
        rw [ainsert_of_none _ _ _ h0.1, ainsert_of_none _ _ _ h0.2.1,
          ainsert_of_none _ _ _ h0.2.2]
      rw [hs1]
      have hfresh2 : ∀ t2 ∈ ts,
          alookup (s.tools ++ [(t.method, Json.obj
            [("description".data, Json.str (descr t.method)),
             ("parameters".data, schemaFn t.method)])]) t2.method = none ∧
          alookup (s.handlers ++ [(t.method, createHandler clientRun t.method)])
            t2.method = none ∧
          alookup (s.validatorModels ++ [(t.method, mkValidator t.parameters)])
            t2.method = none := by
        intro t2 ht2
        have hne : t.method ≠ t2.method := (List.pairwise_cons.mp hpair).1 t2 ht2
        have h2 := hfresh t2 (by simp [ht2])
        refine ⟨?_, ?_, ?_⟩ <;>
          rw [alookup_append] <;>
          simp only [h2.1, h2.2.1, h2.2.2] <;>
          simp [alookup, hne]
      have ih := registerStep_foldl_keys descr schemaFn clientRun actions ts
        { s with
          tools := s.tools ++
            [(t.method, Json.obj [("description".data, Json.str (descr t.method)),
              ("parameters".data, schemaFn t.method)])],
          handlers := s.handlers ++ [(t.method, createHandler clientRun t.method)],
          validatorModels := s.validatorModels ++
            [(t.method, mkValidator t.parameters)] }
        hfresh2 (List.pairwise_cons.mp hpair).2
      simp only at ih
      rw [List.filter_cons_of_pos (by simp [hallow])]
      simp only [List.map_cons]
      refine ⟨?_, ?_, ?_, ih.2.2.2⟩ <;>
        simp [ih.1, ih.2.1, ih.2.2.1]
    · have hs1 : registerStep descr schemaFn clientRun actions s t = s := by
        simp [registerStep, hallow]
      rw [hs1, List.filter_cons_of_neg (by simp [hallow])]
      exact registerStep_foldl_keys descr schemaFn clientRun actions ts s
        (fun t2 ht2 => hfresh t2 (by simp [ht2])) (List.pairwise_cons.mp hpair).2

/-- The catalog's method names are pairwise distinct. -/
theorem getTools_methods_distinct :
    List.Pairwise (fun a b => a.method ≠ b.method) getTools := by decide

/-- The PayPal server's three registries all hold exactly the enabled
catalog methods, in catalog order; its name is `PayPal`, its version
`0.4.0`. -/
theorem paypalMcpServer_keys (descr : List Char → List Char) (schemaFn : List Char → Json)
    (clientRun : List Char → Json → PyOutcome (List Char))
    (actions : List (List Char × List (List Char × Bool))) :
    (paypalMcpServer descr schemaFn clientRun actions).tools.map Prod.fst =
        (getTools.filter (fun t => isToolAllowed t actions)).map Tool.method ∧
      (paypalMcpServer descr schemaFn clientRun actions).handlers.map Prod.fst =
        (getTools.filter (fun t => isToolAllowed t actions)).map Tool.method ∧
      (paypalMcpServer descr schemaFn clientRun actions).validatorModels.map Prod.fst =
        (getTools.filter (fun t => isToolAllowed t actions)).map Tool.method ∧
      (paypalMcpServer descr schemaFn clientRun actions).name = "PayPal".data ∧
      (paypalMcpServer descr schemaFn clientRun actions).version = "0.4.0".data := by
  have h := registerStep_foldl_keys descr schemaFn clientRun actions getTools
    (mkMcpServer "PayPal".data "0.4.0".data)
    (by intro t _; exact ⟨rfl, rfl, rfl⟩) getTools_methods_distinct
  simpa [paypalMcpServer, registerTools_eq_foldl, mkMcpServer] using h

/-- `serverRun`'s fold, started from an arbitrary accumulator. -/
theorem serverRun_acc :
    ∀ (msgs : List Json) (s : McpServer) (out : List Json)
      (calls : List (List Char × Json)),
      msgs.foldl
        (fun acc msg =>
          let r := handleMessage acc.1 msg
          (r.state, acc.2.1 ++ r.sent, acc.2.2 ++ r.handlerCalls))
        (s, out, calls) =
      ((serverRun s msgs).1, out ++ (serverRun s msgs).2.1, calls ++ (serverRun s msgs).2.2)
  | [], s, out, calls => by simp [serverRun]
  | m :: ms, s, out, calls => by
    have h1 := serverRun_acc ms (handleMessage s m).state
      (out ++ (handleMessage s m).sent) (calls ++ (handleMessage s m).handlerCalls)
    have h2 := serverRun_acc ms (handleMessage s m).state
      ([] ++ (handleMessage s m).sent) ([] ++ (handleMessage s m).handlerCalls)
    simp only [serverRun, List.foldl_cons] at h1 h2 ⊢
    rw [h1, h2]
    simp

/-- Splitting a session after its first message: the later messages run
against the state the first one left behind. -/
theorem serverRun_cons (s : McpServer) (m : Json) (ms : List Json) :
    serverRun s (m :: ms) =
      ((serverRun (handleMessage s m).state ms).1,
       (handleMessage s m).sent ++ (serverRun (handleMessage s m).state ms).2.1,
       (handleMessage s m).handlerCalls ++
         (serverRun (handleMessage s m).state ms).2.2) := by
  have h := serverRun_acc ms (handleMessage s m).state
    ([] ++ (handleMessage s m).sent) ([] ++ (handleMessage s m).handlerCalls)
  simp only [serverRun, List.foldl_cons] at h ⊢
  rw [h]
  simp

/-! ## The claims -/

/-- C1: the spec says that feeding the concatenation of the encodings of
two messages to the reader in one chunk invokes the message callback
exactly twice, each framed message being consumed by exactly one
dispatch.  The code violates this: `_process_buffer`'s recursive call and
its `while` loop both reprocess the remainder, so the chunk
`encode({"id": 1, "type": "ping"}) ++ encode({"id": 2, "type": "ping"})`
produces **three** callbacks — M1, M2 and M2 again. -/
theorem c1_back_to_back_duplicate_dispatch :
    feedChunk [] (sendBytes pingMsg1 ++ sendBytes pingMsg2) =
      ([pingMsg1, pingMsg2, pingMsg2], []) := by decide

/-- C2: the spec says a message is delivered exactly when `header_end +
N` **bytes** are available, `N` being the byte length of the UTF-8 body.
The code compares `N` against the **character** count of the
replace-decoded buffer, so the complete 23-byte frame
`Content-Length: 2\r\n\r\n` + `0xC3 0xA9` (the 2-byte body `é`, one
character) is never delivered: the reader leaves the whole frame pending
although all `21 + 2` declared bytes are present. -/
theorem c2_length_check_counts_chars_not_bytes :
    feedChunk [] eAcuteFrame = ([], eAcuteFrame) ∧ eAcuteFrame.length = 21 + 2 := by decide

/-- C3 counterexample: with `invoices.list` and `invoices.get` enabled,
the Ping response's `result.capabilities` is
`["list_invoices", "get_invoice"]` — the registration order of the
catalog — which differs from the sorted order
`["get_invoice", "list_invoices"]`, so the capabilities are not the
sorted enabled method names. -/
theorem c3_ping_capabilities_unsorted :
    (handleMessage (paypalMcpServer noDescr noSchema okClient cfgListGet) pingMsg1).sent =
      [Json.obj
        [("id".data, Json.int 1), ("type".data, Json.str "response".data),
         ("status".data, Json.str "success".data),
         ("result".data, Json.obj
           [("id".data, Json.int 1), ("name".data, Json.str "PayPal".data),
            ("version".data, Json.str "0.4.0".data),
            ("capabilities".data, Json.arr
              [Json.str "list_invoices".data, Json.str "get_invoice".data])])]] ∧
      [Json.str "list_invoices".data, Json.str "get_invoice".data] ≠
        [Json.str "get_invoice".data, Json.str "list_invoices".data] := by decide

/-- C3 amended: a Ping always gets exactly one success Response echoing
its `id`, carrying the server name `PayPal`, version `0.4.0`, and
`result.capabilities` equal to the enabled method names **in catalog
registration order** (the same set as the enabled methods, but not
sorted). -/
theorem c3_ping_identity_catalog_order (descr : List Char → List Char)
    (schemaFn : List Char → Json) (clientRun : List Char → Json → PyOutcome (List Char))
    (actions : List (List Char × List (List Char × Bool)))
    (fields : List (List Char × Json))
    (hping : dictGet fields "type".data = Json.str "ping".data) :
    handleMessage (paypalMcpServer descr schemaFn clientRun actions) (Json.obj fields) =
      { state := paypalMcpServer descr schemaFn clientRun actions,
        sent := [Json.obj
          [("id".data, dictGet fields "id".data),
           ("type".data, Json.str "response".data),
           ("status".data, Json.str "success".data),
           ("result".data, Json.obj
             [("id".data, dictGet fields "id".data),
              ("name".data, Json.str "PayPal".data),
              ("version".data, Json.str "0.4.0".data),
              ("capabilities".data, Json.arr
                (((getTools.filter (fun t => isToolAllowed t actions)).map
                  Tool.method).map Json.str))])]],
        handlerCalls := [], crashed := none } := by
  have hk := paypalMcpServer_keys descr schemaFn clientRun actions
  simp only [handleMessage, hping, if_true, respondToPing, if_pos rfl]
  rw [show (paypalMcpServer descr schemaFn clientRun actions).tools.map
        (fun kv => Json.str kv.1) =
      ((paypalMcpServer descr schemaFn clientRun actions).tools.map Prod.fst).map
        Json.str by simp]
  rw [hk.1, hk.2.2.2.1, hk.2.2.2.2]

/-- C3 amended, witness: the ping `{"id": 1, "type": "ping"}` against the
`invoices.list`+`invoices.get` configuration. -/
theorem c3_ping_identity_catalog_order_witness :
    handleMessage (paypalMcpServer noDescr noSchema okClient cfgListGet)
        (Json.obj [("id".data, Json.int 1), ("type".data, Json.str "ping".data)]) =
      { state := paypalMcpServer noDescr noSchema okClient cfgListGet,
        sent := [Json.obj
          [("id".data, Json.int 1),
           ("type".data, Json.str "response".data),
           ("status".data, Json.str "success".data),
           ("result".data, Json.obj
             [("id".data, Json.int 1),
              ("name".data, Json.str "PayPal".data),
              ("version".data, Json.str "0.4.0".data),
              ("capabilities".data, Json.arr
                (((getTools.filter (fun t => isToolAllowed t cfgListGet)).map
                  Tool.method).map Json.str))])]],
        handlerCalls := [], crashed := none } :=
  c3_ping_identity_catalog_order noDescr noSchema okClient cfgListGet
    [("id".data, Json.int 1), ("type".data, Json.str "ping".data)] (by decide)

/-- C7 counterexample: registering method `m` a second time is not
rejected — the second registration silently replaces the stored
description/schema and the handler, while (the second call passing no
validator) the first registration's validator stays in place. -/
theorem c7_reregistration_overwrites :
    alookup (tool (tool (mkMcpServer "PayPal".data "0.4.0".data)
          "m".data "d1".data (Json.str "s1".data) (fun _ => PyOutcome.ok (Json.int 1))
          (some (mkValidator getInvoiceP)))
        "m".data "d2".data (Json.str "s2".data) (fun _ => PyOutcome.ok (Json.int 2))
        none).tools "m".data =
      some (Json.obj [("description".data, Json.str "d2".data),
        ("parameters".data, Json.str "s2".data)]) ∧
    Json.obj [("description".data, Json.str "d2".data),
        ("parameters".data, Json.str "s2".data)] ≠
      Json.obj [("description".data, Json.str "d1".data),
        ("parameters".data, Json.str "s1".data)] ∧
    (alookup (tool (tool (mkMcpServer "PayPal".data "0.4.0".data)
          "m".data "d1".data (Json.str "s1".data) (fun _ => PyOutcome.ok (Json.int 1))
          (some (mkValidator getInvoiceP)))
        "m".data "d2".data (Json.str "s2".data) (fun _ => PyOutcome.ok (Json.int 2))
        none).handlers "m".data).map (fun h => h Json.null) =
      some (PyOutcome.ok (Json.int 2)) ∧
    (alookup (tool (tool (mkMcpServer "PayPal".data "0.4.0".data)
          "m".data "d1".data (Json.str "s1".data) (fun _ => PyOutcome.ok (Json.int 1))
          (some (mkValidator getInvoiceP)))
        "m".data "d2".data (Json.str "s2".data) (fun _ => PyOutcome.ok (Json.int 2))
        none).validatorModels "m".data).map (fun v => v []) =
      some (Except.error [(["invoice_id".data], "Field required".data)]) := by decide

/-- C7 amended: `McpServer.tool` never rejects a re-registration; it
overwrites the stored description/schema entry and the handler for the
method, and replaces the validator exactly when a new validator model is
passed (otherwise the previously registered validator remains). -/
theorem c7_reregistration_semantics (s : McpServer) (m d : List Char) (schema : Json)
    (handler : Json → PyOutcome Json) (vOpt : Option Validator) :
    alookup (tool s m d schema handler vOpt).tools m =
        some (Json.obj [("description".data, Json.str d), ("parameters".data, schema)]) ∧
      alookup (tool s m d schema handler vOpt).handlers m = some handler ∧
      alookup (tool s m d schema handler vOpt).validatorModels m =
        (match vOpt with
         | some v => some v
         | none => alookup s.validatorModels m) := by
  refine ⟨alookup_ainsert s.tools m _, alookup_ainsert s.handlers m _, ?_⟩
  cases vOpt with
  | some v => exact alookup_ainsert s.validatorModels m v
  | none => rfl

/-- C9: a message object whose `type` is neither `ping` nor `request`
(including no `type` at all) is silently ignored: nothing is sent, no
handler is invoked, no exception escapes, the state is unchanged. -/
theorem c9_other_types_ignored (s : McpServer) (fields : List (List Char × Json))
    (hping : dictGet fields "type".data ≠ Json.str "ping".data)
    (hreq : dictGet fields "type".data ≠ Json.str "request".data) :
    handleMessage s (Json.obj fields) =
      { state := s, sent := [], handlerCalls := [], crashed := none } := by
  simp [handleMessage, hping, hreq]

/-- C9 witness: `{"id": 1, "type": "notification"}` is ignored. -/
theorem c9_other_types_ignored_witness :
    handleMessage (mkMcpServer "PayPal".data "0.4.0".data)
        (Json.obj [("id".data, Json.int 1), ("type".data, Json.str "notification".data)]) =
      { state := mkMcpServer "PayPal".data "0.4.0".data, sent := [],
        handlerCalls := [], crashed := none } :=
  c9_other_types_ignored (mkMcpServer "PayPal".data "0.4.0".data)
    [("id".data, Json.int 1), ("type".data, Json.str "notification".data)]
    (by decide) (by decide)

/-- A message whose `type` is `request` goes to `_handle_request`. -/
theorem handleMessage_request (s : McpServer) (fields : List (List Char × Json))
    (htype : dictGet fields "type".data = Json.str "request".data) :
    handleMessage s (Json.obj fields) = handleRequest s fields := by
  simp only [handleMessage]
  rw [htype, if_neg (by decide), if_pos rfl]

/-- C4's session consequence: because the failing dispatch leaves the
state unchanged, the rest of the session behaves exactly as on a fresh
session — the failure only prepends its own error response. -/
theorem c4_subsequent_requests_unaffected (s : McpServer) (msg : Json)
    (resp : Json) (call : List Char × Json)
    (h : handleMessage s msg =
      { state := s, sent := [resp], handlerCalls := [call], crashed := none }) :
    ∀ rest, serverRun s (msg :: rest) =
      ((serverRun s rest).1, resp :: (serverRun s rest).2.1,
        call :: (serverRun s rest).2.2) := by
  intro rest
  rw [serverRun_cons, h]
  exact rfl

/-- C4: a request for a known method whose params validate and whose
handler then raises is answered by exactly one `-32603` error response
echoing the request id; no exception escapes, the state is untouched. -/
theorem c4_handler_failure_isolated (s : McpServer) (fields : List (List Char × Json))
    (m : List Char) (toolMeta : Json) (vm : Validator)
    (paramFields dumped : List (List Char × Json))
    (handler : Json → PyOutcome Json) (e : List Char)
    (htype : dictGet fields "type".data = Json.str "request".data)
    (hm : dictGet fields "method".data = Json.str m)
    (htool : alookup s.tools m = some toolMeta)
    (hvm : alookup s.validatorModels m = some vm)
    (hparams : dictGetD fields "params".data (Json.obj []) = Json.obj paramFields)
    (hval : vm paramFields = Except.ok dumped)
    (hh : alookup s.handlers m = some handler)
    (hexn : handler (Json.obj dumped) = PyOutcome.exn e) :
    handleMessage s (Json.obj fields) =
      { state := s,
        sent := [sendError (dictGet fields "id".data) (-32603) "Internal error".data
          (some (Json.str e))],
        handlerCalls := [(m, Json.obj dumped)], crashed := none } ∧
    ∀ rest, serverRun s (Json.obj fields :: rest) =
      ((serverRun s rest).1,
       sendError (dictGet fields "id".data) (-32603) "Internal error".data
           (some (Json.str e)) :: (serverRun s rest).2.1,
       (m, Json.obj dumped) :: (serverRun s rest).2.2) := by
  have h1 : handleMessage s (Json.obj fields) =
      { state := s,
        sent := [sendError (dictGet fields "id".data) (-32603) "Internal error".data
          (some (Json.str e))],
        handlerCalls := [(m, Json.obj dumped)], crashed := none } := by
    rw [handleMessage_request s fields htype]
    simp only [handleRequest, hm, htool, hvm, hparams, hval, invokeHandler, hh, hexn]
  exact ⟨h1, c4_subsequent_requests_unaffected s (Json.obj fields) _ _ h1⟩

/-- C4 witness: `list_invoices` with empty params against a client stub
that raises `Exception("boom")`. -/
theorem c4_handler_failure_isolated_witness :
    handleMessage (paypalMcpServer noDescr noSchema boomClient cfgListGet)
        (Json.obj [("id".data, Json.int 10), ("type".data, Json.str "request".data),
          ("method".data, Json.str "list_invoices".data), ("params".data, Json.obj [])]) =
      { state := paypalMcpServer noDescr noSchema boomClient cfgListGet,
        sent := [sendError (Json.int 10) (-32603) "Internal error".data
          (some (Json.str "boom".data))],
        handlerCalls := [("list_invoices".data,
          Json.obj [("page".data, Json.int 1), ("page_size".data, Json.int 100),
            ("total_required".data, Json.null)])],
        crashed := none } :=
  (c4_handler_failure_isolated (paypalMcpServer noDescr noSchema boomClient cfgListGet)
    [("id".data, Json.int 10), ("type".data, Json.str "request".data),
      ("method".data, Json.str "list_invoices".data), ("params".data, Json.obj [])]
    "list_invoices".data
    (Json.obj [("description".data, Json.str []), ("parameters".data, Json.obj [])])
    (mkValidator listInvoicesP) []
    [("page".data, Json.int 1), ("page_size".data, Json.int 100),
      ("total_required".data, Json.null)]
    (createHandler boomClient "list_invoices".data) "boom".data
    (by decide) (by decide) (by rfl) (by rfl) (by decide) (by rfl) (by rfl) (by rfl)).1

/-- Two members of a list that is pairwise distinct under `f` and agree
on `f` are the same member. -/
theorem pairwise_ne_inj_on {α β : Type} (f : α → β) :
    ∀ (l : List α), List.Pairwise (fun x y => f x ≠ f y) l →
      ∀ a ∈ l, ∀ b ∈ l, f a = f b → a = b := by
  intro l hl
  induction hl with
  | nil => intro a ha; simp at ha
  | cons hx _ ih =>
    intro a ha b hb hab
    rcases List.mem_cons.mp ha with ha1 | ha2 <;>
      rcases List.mem_cons.mp hb with hb1 | hb2
    · rw [ha1, hb1]
    · subst ha1; exact absurd hab (hx b hb2)
    · subst hb1; exact absurd hab.symm (hx a ha2)
    · exact ih a ha2 b hb2 hab

/-- The per-pair condition of `_is_tool_allowed`, characterised. -/
theorem enabledCond_iff (actions : List (List Char × List (List Char × Bool)))
    (p a : List Char) :
    (match alookup actions p with
      | some productActions => (alookup productActions a).getD false
      | none => false) = true ↔
      ∃ pacts, alookup actions p = some pacts ∧ alookup pacts a = some true := by
  match h : alookup actions p with
  | none => simp
  | some pacts =>
    simp only [Option.some.injEq]
    match hb : alookup pacts a with
    | none => simp [hb]
    | some b => cases b <;> simp [hb]

/-- The Boolean enablement loop of `_is_tool_allowed`, characterised. -/
theorem isToolAllowed_iff (t : Tool)
    (actions : List (List Char × List (List Char × Bool))) :
    isToolAllowed t actions = true ↔
      ∃ pa ∈ t.actions, ∃ ae ∈ pa.2, ∃ pacts,
        alookup actions pa.1 = some pacts ∧ alookup pacts ae.1 = some true := by
  simp only [isToolAllowed, List.any_eq_true]
  constructor
  · rintro ⟨pa, hpa, ae, hae, hcond⟩
    exact ⟨pa, hpa, ae, hae, (enabledCond_iff actions pa.1 ae.1).mp hcond⟩
  · rintro ⟨pa, hpa, ae, hae, hex⟩
    exact ⟨pa, hpa, ae, hae, (enabledCond_iff actions pa.1 ae.1).mpr hex⟩

/-- C5: a capability is enabled iff the configuration explicitly marks
one of its declared `(resource-group, action)` pairs `true` (default
deny); a request for a method outside the enabled set is answered by
exactly one `-32601` error with no handler invoked; and a disabled
catalog tool's method never appears in the Ping capability list. -/
theorem c5_default_deny_enablement :
    (∀ (t : Tool) (actions : List (List Char × List (List Char × Bool))),
        isToolAllowed t actions = true ↔
          ∃ pa ∈ t.actions, ∃ ae ∈ pa.2, ∃ pacts,
            alookup actions pa.1 = some pacts ∧ alookup pacts ae.1 = some true) ∧
    (∀ (descr : List Char → List Char) (schemaFn : List Char → Json)
        (clientRun : List Char → Json → PyOutcome (List Char))
        (actions : List (List Char × List (List Char × Bool)))
        (fields : List (List Char × Json)) (m : List Char),
        dictGet fields "type".data = Json.str "request".data →
        dictGet fields "method".data = Json.str m →
        m ∉ (getTools.filter (fun t => isToolAllowed t actions)).map Tool.method →
        handleMessage (paypalMcpServer descr schemaFn clientRun actions)
            (Json.obj fields) =
          { state := paypalMcpServer descr schemaFn clientRun actions,
            sent := [sendError (dictGet fields "id".data) (-32601)
              "Method not found".data
              (some (Json.str ("Method '".data ++ m ++ "' not found".data)))],
            handlerCalls := [], crashed := none }) ∧
    (∀ (descr : List Char → List Char) (schemaFn : List Char → Json)
        (clientRun : List Char → Json → PyOutcome (List Char))
        (actions : List (List Char × List (List Char × Bool))) (t : Tool),
        t ∈ getTools → isToolAllowed t actions = false →
        Json.str t.method ∉
          (paypalMcpServer descr schemaFn clientRun actions).tools.map
            (fun kv => Json.str kv.1)) := by
  refine ⟨isToolAllowed_iff, ?_, ?_⟩
  · intro descr schemaFn clientRun actions fields m htype hm hnm
    have hk := paypalMcpServer_keys descr schemaFn clientRun actions
    have hnone : alookup (paypalMcpServer descr schemaFn clientRun actions).tools m =
        none := by
      rw [alookup_eq_none, hk.1]
      exact hnm
    rw [handleMessage_request _ fields htype]
    simp only [handleRequest, hm, hnone]
  · intro descr schemaFn clientRun actions t ht hdis hmem
    have hk := paypalMcpServer_keys descr schemaFn clientRun actions
    rw [show ((paypalMcpServer descr schemaFn clientRun actions).tools.map
          (fun kv => Json.str kv.1)) =
        ((paypalMcpServer descr schemaFn clientRun actions).tools.map Prod.fst).map
          Json.str by simp, hk.1] at hmem
    simp only [List.mem_map, List.mem_filter] at hmem
    obtain ⟨m2, ⟨t2, ⟨ht2mem, ht2allow⟩, hmeth⟩, hstr⟩ := hmem
    have heq : t2 = t :=
      pairwise_ne_inj_on Tool.method getTools getTools_methods_distinct t2 ht2mem t ht
        (hmeth.trans (Json.str.inj hstr))
    rw [heq] at ht2allow
    rw [ht2allow] at hdis
    cases hdis

/-- C5 witness: with only `invoices.list`/`invoices.get` enabled,
`capture_order`'s governing pair is unmarked so the tool is disabled; a
request for `capture_order` gets `-32601` with no handler call; and
`capture_order` is not in the capability list. -/
theorem c5_default_deny_enablement_witness :
    (isToolAllowed ⟨"capture_order".data, "Capture Order".data,
        act1 "orders" "capture", captureOrderP⟩ cfgListGet = false) ∧
    handleMessage (paypalMcpServer noDescr noSchema okClient cfgListGet)
        (Json.obj [("id".data, Json.int 3), ("type".data, Json.str "request".data),
          ("method".data, Json.str "capture_order".data), ("params".data, Json.obj [])]) =
      { state := paypalMcpServer noDescr noSchema okClient cfgListGet,
        sent := [sendError (Json.int 3) (-32601) "Method not found".data
          (some (Json.str ("Method '".data ++ "capture_order".data ++
            "' not found".data)))],
        handlerCalls := [], crashed := none } ∧
    Json.str "capture_order".data ∉
      (paypalMcpServer noDescr noSchema okClient cfgListGet).tools.map
        (fun kv => Json.str kv.1) := by
  refine ⟨by decide, ?_, ?_⟩
  · exact c5_default_deny_enablement.2.1 noDescr noSchema okClient cfgListGet
      [("id".data, Json.int 3), ("type".data, Json.str "request".data),
        ("method".data, Json.str "capture_order".data), ("params".data, Json.obj [])]
      "capture_order".data (by decide) (by decide) (by decide)
  · decide

/-- C6: when a known method's validator rejects the params, the dispatch
answers with exactly one `-32602` error carrying the rendered validation
errors and never invokes the handler; every method the PayPal server
registers has a validator, so validation always precedes the handler;
and, concretely, `get_invoice` with empty params is rejected with a
message naming the missing field `invoice_id`. -/
theorem c6_validation_before_handler :
    (∀ (s : McpServer) (fields : List (List Char × Json)) (m : List Char)
        (toolMeta : Json) (vm : Validator) (paramFields : List (List Char × Json))
        (errs : List VErrorItem),
        dictGet fields "type".data = Json.str "request".data →
        dictGet fields "method".data = Json.str m →
        alookup s.tools m = some toolMeta →
        alookup s.validatorModels m = some vm →
        dictGetD fields "params".data (Json.obj []) = Json.obj paramFields →
        vm paramFields = Except.error errs →
        handleMessage s (Json.obj fields) =
          { state := s,
            sent := [sendError (dictGet fields "id".data) (-32602)
              "Invalid params".data (some (Json.str (renderVErrors errs)))],
            handlerCalls := [], crashed := none }) ∧
    (∀ (descr : List Char → List Char) (schemaFn : List Char → Json)
        (clientRun : List Char → Json → PyOutcome (List Char))
        (actions : List (List Char × List (List Char × Bool))) (m : List Char),
        alookup (paypalMcpServer descr schemaFn clientRun actions).tools m ≠ none →
        alookup (paypalMcpServer descr schemaFn clientRun actions).validatorModels m ≠
          none) ∧
    ((handleMessage (paypalMcpServer noDescr noSchema okClient cfgListGet)
        (Json.obj [("id".data, Json.int 9), ("type".data, Json.str "request".data),
          ("method".data, Json.str "get_invoice".data),
          ("params".data, Json.obj [])])).sent =
      [sendError (Json.int 9) (-32602) "Invalid params".data
        (some (Json.str "invoice_id\n  Field required\n".data))] ∧
      (handleMessage (paypalMcpServer noDescr noSchema okClient cfgListGet)
        (Json.obj [("id".data, Json.int 9), ("type".data, Json.str "request".data),
          ("method".data, Json.str "get_invoice".data),
          ("params".data, Json.obj [])])).handlerCalls = [] ∧
      (handleMessage (paypalMcpServer noDescr noSchema okClient cfgListGet)
        (Json.obj [("id".data, Json.int 9), ("type".data, Json.str "request".data),
          ("method".data, Json.str "get_invoice".data),
          ("params".data, Json.obj [])])).crashed = none) := by
  refine ⟨?_, ?_, by decide, by decide, by decide⟩
  · intro s fields m toolMeta vm paramFields errs htype hm htool hvm hparams hverr
    rw [handleMessage_request s fields htype]
    simp only [handleRequest, hm, htool, hvm, hparams, hverr]
  · intro descr schemaFn clientRun actions m h hcontra
    have hk := paypalMcpServer_keys descr schemaFn clientRun actions
    apply h
    rw [alookup_eq_none, hk.1]
    rw [alookup_eq_none, hk.2.2.1] at hcontra
    exact hcontra

/-- C6 witness: the general conjunct applied to the concrete
`get_invoice` request with empty params. -/
theorem c6_validation_before_handler_witness :
    handleMessage (paypalMcpServer noDescr noSchema okClient cfgListGet)
        (Json.obj [("id".data, Json.int 9), ("type".data, Json.str "request".data),
          ("method".data, Json.str "get_invoice".data), ("params".data, Json.obj [])]) =
      { state := paypalMcpServer noDescr noSchema okClient cfgListGet,
        sent := [sendError (Json.int 9) (-32602) "Invalid params".data
          (some (Json.str (renderVErrors
            [(["invoice_id".data], "Field required".data)])))],
        handlerCalls := [], crashed := none } :=
  c6_validation_before_handler.1
    (paypalMcpServer noDescr noSchema okClient cfgListGet)
    [("id".data, Json.int 9), ("type".data, Json.str "request".data),
      ("method".data, Json.str "get_invoice".data), ("params".data, Json.obj [])]
    "get_invoice".data
    (Json.obj [("description".data, Json.str []), ("parameters".data, Json.obj [])])
    (mkValidator getInvoiceP) []
    [(["invoice_id".data], "Field required".data)]
    (by decide) (by decide) (by rfl) (by rfl) (by decide) (by rfl)

/-- On success, `validateFields` dumps exactly the declared fields in
declaration order, a field the caller omitted carrying its declared
default. -/
theorem validateFields_shape :
    ∀ (fuel : Nat) (fields : List (List Char × FType × Bool × Json))
      (kvs d : List (List Char × Json)),
      validateFields fuel fields kvs = Except.ok d →
      List.Forall₂
        (fun f dv => dv.1 = f.1 ∧ (alookup kvs f.1 = none → dv.2 = f.2.2.2)) fields d
  | 0, fields, kvs, d => by intro h; cases h
  | fuel + 1, [], kvs, d => by
    intro h
    injection h with h'
    rw [← h']
    exact List.Forall₂.nil
  | fuel + 1, (fname, ft, req, deflt) :: fs, kvs, d => by
    intro h
    match hlk : alookup kvs fname with
    | some v =>
      match hvt : validateType fuel ft v with
      | Except.ok dv =>
        match hrec : validateFields fuel fs kvs with
        | Except.ok ds =>
          have h2 : (fname, dv) :: ds = d := by
            simpa [validateFields, hlk, hvt, hrec] using h
          rw [← h2]
          exact List.Forall₂.cons
            ⟨rfl, fun hnone => by rw [hnone] at hlk; cases hlk⟩
            (validateFields_shape fuel fs kvs ds hrec)
        | Except.error es => simp [validateFields, hlk, hvt, hrec] at h
      | Except.error e =>
        match hrec : validateFields fuel fs kvs with
        | Except.ok ds => simp [validateFields, hlk, hvt, hrec] at h
        | Except.error es => simp [validateFields, hlk, hvt, hrec] at h
    | none =>
      cases req with
      | true =>
        match hrec : validateFields fuel fs kvs with
        | Except.ok ds => simp [validateFields, hlk, hrec] at h
        | Except.error es => simp [validateFields, hlk, hrec] at h
      | false =>
        match hrec : validateFields fuel fs kvs with
        | Except.ok ds =>
          have h2 : (fname, deflt) :: ds = d := by
            simpa [validateFields, hlk, hrec] using h
          rw [← h2]
          exact List.Forall₂.cons ⟨rfl, fun _ => rfl⟩
            (validateFields_shape fuel fs kvs ds hrec)
        | Except.error es => simp [validateFields, hlk, hrec] at h

/-- C10: the handler of a validated request receives exactly the
validator's `model_dump()` of the params (not the caller's raw object);
such a dump lists every declared field in declaration order with omitted
fields materialised to their defaults; concretely, `list_invoices` called
with `{}` hands its handler
`{"page": 1, "page_size": 100, "total_required": null}`. -/
theorem c10_handler_receives_model_dump :
    (∀ (s : McpServer) (fields : List (List Char × Json)) (m : List Char)
        (toolMeta : Json) (vm : Validator)
        (paramFields dumped : List (List Char × Json))
        (handler : Json → PyOutcome Json),
        dictGet fields "type".data = Json.str "request".data →
        dictGet fields "method".data = Json.str m →
        alookup s.tools m = some toolMeta →
        alookup s.validatorModels m = some vm →
        dictGetD fields "params".data (Json.obj []) = Json.obj paramFields →
        vm paramFields = Except.ok dumped →
        alookup s.handlers m = some handler →
        (handleMessage s (Json.obj fields)).handlerCalls = [(m, Json.obj dumped)]) ∧
    (∀ (fuel : Nat) (fields : List (List Char × FType × Bool × Json))
        (kvs d : List (List Char × Json)),
        validateFields fuel fields kvs = Except.ok d →
        List.Forall₂
          (fun f dv => dv.1 = f.1 ∧ (alookup kvs f.1 = none → dv.2 = f.2.2.2))
          fields d) ∧
    (handleMessage (paypalMcpServer noDescr noSchema okClient cfgListGet)
        (Json.obj [("id".data, Json.int 10), ("type".data, Json.str "request".data),
          ("method".data, Json.str "list_invoices".data),
          ("params".data, Json.obj [])])).handlerCalls =
      [("list_invoices".data,
        Json.obj [("page".data, Json.int 1), ("page_size".data, Json.int 100),
          ("total_required".data, Json.null)])] := by
  refine ⟨?_, validateFields_shape, by decide⟩
  intro s fields m toolMeta vm paramFields dumped handler htype hm htool hvm hparams
    hval hh
  rw [handleMessage_request s fields htype]
  simp only [handleRequest, hm, htool, hvm, hparams, hval, invokeHandler, hh]
  cases hout : handler (Json.obj dumped) <;> simp [hout]

/-- C10 witness: the dispatch conjunct applied to the concrete
`list_invoices` request with empty params. -/
theorem c10_handler_receives_model_dump_witness :
    (handleMessage (paypalMcpServer noDescr noSchema okClient cfgListGet)
        (Json.obj [("id".data, Json.int 10), ("type".data, Json.str "request".data),
          ("method".data, Json.str "list_invoices".data),
          ("params".data, Json.obj [])])).handlerCalls =
      [("list_invoices".data,
        Json.obj [("page".data, Json.int 1), ("page_size".data, Json.int 100),
          ("total_required".data, Json.null)])] :=
  c10_handler_receives_model_dump.1
    (paypalMcpServer noDescr noSchema okClient cfgListGet)
    [("id".data, Json.int 10), ("type".data, Json.str "request".data),
      ("method".data, Json.str "list_invoices".data), ("params".data, Json.obj [])]
    "list_invoices".data
    (Json.obj [("description".data, Json.str []), ("parameters".data, Json.obj [])])
    (mkValidator listInvoicesP) []
    [("page".data, Json.int 1), ("page_size".data, Json.int 100),
      ("total_required".data, Json.null)]
    (createHandler okClient "list_invoices".data)
    (by decide) (by decide) (by rfl) (by rfl) (by decide) (by rfl) (by rfl)

/-! ## C8: the framing round trip — decimal, hex and character lemmas -/

/-- `Char.ofNat` then `Char.toNat` is the identity below the surrogates. -/
theorem charToNat_ofNat (n : Nat) (h : n < 55296) : (Char.ofNat n).toNat = n := by
  simp [Char.ofNat, Nat.isValidChar, h, Char.toNat, Char.ofNatAux, UInt32.toNat]

/-- `Char.ofNat` then `Char.toNat` is the identity on every valid scalar. -/
theorem charToNat_ofNat_valid (n : Nat) (h : Nat.isValidChar n) :
    (Char.ofNat n).toNat = n := by
  rcases h with h1 | ⟨h1, h2⟩
  · exact charToNat_ofNat n h1
  · have hcond : n < 55296 ∨ 57343 < n ∧ n < 1114112 := Or.inr ⟨h1, h2⟩
    simp [Char.ofNat, Nat.isValidChar, Char.toNat, Char.ofNatAux, UInt32.toNat, hcond]

/-- A character's scalar value is never a UTF-16 surrogate and is below
`0x110000`. -/
theorem char_toNat_not_surrogate (c : Char) :
    (c.toNat < 55296 ∨ 57344 ≤ c.toNat) ∧ c.toNat < 1114112 := by
  have hv : c.val.toNat < 55296 ∨ (57343 < c.val.toNat ∧ c.val.toNat < 1114112) :=
    c.valid
  have he : c.toNat = c.val.toNat := rfl
  rw [he]
  rcases hv with h | ⟨h1, h2⟩
  · exact ⟨Or.inl h, by omega⟩
  · exact ⟨Or.inr (by omega), h2⟩

/-- `digitChar` produces a decimal digit with the expected value. -/
theorem digitChar_toNat (d : Nat) (h : d < 10) : (digitChar d).toNat = 48 + d := by
  unfold digitChar
  exact charToNat_ofNat (48 + d) (by omega)

/-- `digitChar` output satisfies `isDigit`. -/
theorem isDigit_digitChar (d : Nat) (h : d < 10) : isDigit (digitChar d) = true := by
  simp only [isDigit, digitChar_toNat d h, Bool.and_eq_true, decide_eq_true_eq]
  omega

/-- `hexChar` produces a hex digit whose `hexVal` is its value. -/
theorem hexVal_hexChar (d : Nat) (h : d < 16) : hexVal (hexChar d) = some d := by
  unfold hexChar hexVal
  by_cases h10 : d < 10
  · rw [if_pos h10, charToNat_ofNat (48 + d) (by omega),
      if_pos (show 48 ≤ 48 + d ∧ 48 + d ≤ 57 by omega)]
    simp only [Option.some.injEq]
    omega
  · rw [if_neg h10, charToNat_ofNat (87 + d) (by omega),
      if_neg (show ¬(48 ≤ 87 + d ∧ 87 + d ≤ 57) by omega),
      if_pos (show 97 ≤ 87 + d ∧ 87 + d ≤ 102 by omega)]
    simp only [Option.some.injEq]
    omega

/-- `parseHex4` inverts `toHex4` below `0x10000`. -/
theorem parseHex4_toHex4 (n : Nat) (h : n < 65536) (rest : List Char) :
    parseHex4 (toHex4 n ++ rest) = some (n, rest) := by
  unfold toHex4 parseHex4
  simp only [List.cons_append, List.nil_append]
  rw [hexVal_hexChar _ (by omega), hexVal_hexChar _ (by omega),
    hexVal_hexChar _ (by omega), hexVal_hexChar _ (by omega)]
  simp only [Option.some.injEq, Prod.mk.injEq]
  constructor
  · omega
  · trivial

/-- `natToDec` is never empty. -/
theorem natToDec_ne_nil (n : Nat) : natToDec n ≠ [] := by
  rw [natToDec_eq]
  by_cases h : n < 10 <;> simp [h]

/-- Every character `natToDec` produces is a decimal digit. -/
theorem natToDec_all_digits : ∀ (n : Nat), ∀ c ∈ natToDec n, isDigit c = true := by
  intro n
  induction n using Nat.strong_induction_on with
  | _ n ih =>
    rw [natToDec_eq]
    by_cases h : n < 10
    · simpa [h] using isDigit_digitChar n h
    · simp only [h, if_false]
      intro c hc
      rcases List.mem_append.mp hc with h1 | h2
      · exact ih (n / 10) (by omega) c h1
      · simp only [List.mem_singleton] at h2
        rw [h2]
        exact isDigit_digitChar (n % 10) (by omega)

/-- The leading digit of `natToDec n` is `0` only for `n = 0`. -/
theorem natToDec_head_ne_zero : ∀ (n : Nat), 1 ≤ n →
    ∀ ds, natToDec n ≠ digitChar 0 :: ds := by
  intro n
  induction n using Nat.strong_induction_on with
  | _ n ih =>
    intro hn ds
    rw [natToDec_eq]
    by_cases h : n < 10
    · simp only [h, if_true]
      intro hcontra
      have h1 := List.head_eq_of_cons_eq hcontra
      have h2 : (digitChar n).toNat = (digitChar 0).toNat := by rw [h1]
      rw [digitChar_toNat n (by omega), digitChar_toNat 0 (by omega)] at h2
      omega
    · simp only [h, if_false]
      intro hcontra
      match hd : natToDec (n / 10) with
      | [] => exact natToDec_ne_nil (n / 10) hd
      | d :: ds2 =>
        rw [hd] at hcontra
        simp only [List.cons_append] at hcontra
        have h1 := List.head_eq_of_cons_eq hcontra
        exact ih (n / 10) (by omega) (by omega) ds2 (by rw [hd, h1])

/-- `takeDigits` consumes exactly a digit run followed by a non-digit. -/
theorem takeDigits_run : ∀ (s rest : List Char),
    (∀ c ∈ s, isDigit c = true) →
    (rest.head?.all (fun c => !(isDigit c)) = true) →
    takeDigits (s ++ rest) = (s.map (fun c => c.toNat - 48), rest)
  | [], rest, _, hrest => by
    match rest with
    | [] => rfl
    | c :: cs =>
      simp only [List.head?_cons, Option.all_some, Bool.not_eq_true'] at hrest
      simp [takeDigits, hrest]
  | c :: s, rest, hs, hrest => by
    have hc := hs c (by simp)
    have ih := takeDigits_run s rest (fun d hd => hs d (by simp [hd])) hrest
    simp [takeDigits, hc, ih]

/-- The value of a digit run, as `digitsVal` computes it, seeded. -/
theorem digitsVal_append_aux : ∀ (ds : List Nat) (a : Nat),
    List.foldl (fun a d => 10 * a + d) a ds =
      a * 10 ^ ds.length + List.foldl (fun a d => 10 * a + d) 0 ds
  | [], a => by simp
  | d :: ds, a => by
    simp only [List.foldl_cons, List.length_cons, Nat.mul_zero, Nat.zero_add]
    rw [digitsVal_append_aux ds (10 * a + d), digitsVal_append_aux ds d]
    ring

/-- `digitsVal` of the digits of `natToDec n` is `n`. -/
theorem digitsVal_natToDec : ∀ (n : Nat),
    digitsVal ((natToDec n).map (fun c => c.toNat - 48)) = n := by
  intro n
  induction n using Nat.strong_induction_on with
  | _ n ih =>
    rw [natToDec_eq]
    by_cases h : n < 10
    · simp [h, digitsVal, digitChar_toNat n h]
    · simp only [h, if_false, List.map_append, List.map_singleton, digitsVal,
        List.foldl_append, List.foldl_cons, List.foldl_nil]
      have h1 := ih (n / 10) (by omega)
      simp only [digitsVal] at h1
      rw [h1, digitChar_toNat (n % 10) (by omega)]
      omega

/-- Characters agreeing on `toNat` are equal. -/
theorem char_eq_of_toNat_eq {c1 c2 : Char} (h : c1.toNat = c2.toNat) : c1 = c2 := by
  have h1 : Char.ofNat c1.toNat = Char.ofNat c2.toNat := by rw [h]
  rwa [Char.ofNat_toNat, Char.ofNat_toNat] at h1

/-- In `dumps` output a value is followed by `,`, `]`, `}` or the end of
the document; every such delimiter also terminates a number token. -/
def delimOk (rest : List Char) : Bool :=
  rest.head?.all (fun c => c.toNat = 44 || c.toNat = 93 || c.toNat = 125)

/-- A value delimiter is not a digit. -/
theorem delimOk_not_digit (rest : List Char) (h : delimOk rest = true) :
    rest.head?.all (fun c => !(isDigit c)) = true := by
  match rest with
  | [] => rfl
  | c :: cs =>
    simp only [delimOk, List.head?_cons, Option.all_some, Bool.or_eq_true,
      decide_eq_true_eq] at h
    have hnd : isDigit c = false := by
      rw [Bool.eq_false_iff]
      intro hcontra
      simp only [isDigit, Bool.and_eq_true, decide_eq_true_eq] at hcontra
      omega
    simp [hnd]

/-- `takeDigits` on `natToDec` output followed by a delimiter. -/
theorem takeDigits_natToDec (m : Nat) (rest : List Char) (hrest : delimOk rest = true) :
    takeDigits (natToDec m ++ rest) =
      ((natToDec m).map (fun c => c.toNat - 48), rest) :=
  takeDigits_run (natToDec m) rest (natToDec_all_digits m) (delimOk_not_digit rest hrest)

/-- The digit values of `natToDec` never form an illegal leading zero. -/
theorem natToDec_no_leading_zero (m : Nat) (d : Nat) (ds : List Nat)
    (h : (natToDec m).map (fun c => c.toNat - 48) = d :: ds) : ¬(d = 0 ∧ ds ≠ []) := by
  rintro ⟨hd0, hds⟩
  by_cases hm : m < 10
  · rw [natToDec_eq, if_pos hm] at h
    simp only [List.map_cons, List.map_nil] at h
    exact hds (List.tail_eq_of_cons_eq h).symm
  · obtain ⟨c0, cs0, hc0⟩ := List.exists_cons_of_ne_nil (natToDec_ne_nil m)
    rw [hc0] at h
    simp only [List.map_cons] at h
    have hc0d : c0.toNat - 48 = d := List.head_eq_of_cons_eq h
    have hdig : isDigit c0 = true := natToDec_all_digits m c0 (by rw [hc0]; simp)
    simp only [isDigit, Bool.and_eq_true, decide_eq_true_eq] at hdig
    have hc048 : c0.toNat = 48 := by omega
    have : c0 = digitChar 0 :=
      char_eq_of_toNat_eq (by rw [hc048, digitChar_toNat 0 (by omega)])
    exact natToDec_head_ne_zero m (by
        rcases Nat.eq_zero_or_pos m with h0 | h1
        · rw [h0] at hm; omega
        · exact h1) cs0 (by rw [hc0, this])

/-- `parseNumber` inverts `intToDec` up to a value delimiter. -/
theorem parseNumber_intToDec (n : Int) (rest : List Char) (hrest : delimOk rest = true) :
    parseNumber (intToDec n ++ rest) = some (Json.int n, rest) := by
  have hdelim : ∀ (r : List Char), delimOk r = true →
      r.head?.any (fun c => c.toNat = 46 || c.toNat = 101 || c.toNat = 69) = false := by
    intro r hr
    match r with
    | [] => rfl
    | c :: cs =>
      simp only [delimOk, List.head?_cons, Option.all_some, Bool.or_eq_true,
        decide_eq_true_eq] at hr
      simp only [List.head?_cons, Option.any_some, Bool.or_eq_false_iff,
        decide_eq_false_iff_not]
      omega
  cases n with
  | ofNat m =>
    obtain ⟨c0, cs0, hc0⟩ := List.exists_cons_of_ne_nil (natToDec_ne_nil m)
    have hdig : isDigit c0 = true := natToDec_all_digits m c0 (by rw [hc0]; simp)
    have hfalse : decide (c0.toNat = 45) = false := by
      simp only [isDigit, Bool.and_eq_true, decide_eq_true_eq] at hdig
      simp only [decide_eq_false_iff_not]
      omega
    have htd := takeDigits_natToDec m rest hrest
    obtain ⟨d, ds, hds⟩ : ∃ d ds,
        (natToDec m).map (fun c => c.toNat - 48) = d :: ds := by
      rw [hc0]
      exact ⟨c0.toNat - 48, cs0.map (fun c => c.toNat - 48), by simp⟩
    rw [show intToDec (Int.ofNat m) = natToDec m from rfl]
    unfold parseNumber
    rw [hc0]
    simp only [List.cons_append, List.head?_cons, Option.any_some, hfalse,
      Bool.false_eq_true, if_false]
    rw [show c0 :: (cs0 ++ rest) = natToDec m ++ rest from by rw [hc0]; rfl]
    simp only [htd, hds]
    rw [if_neg (natToDec_no_leading_zero m d ds hds)]
    rw [hdelim rest hrest]
    simp only [Bool.false_eq_true, if_false, Option.some.injEq, Prod.mk.injEq]
    refine ⟨?_, trivial⟩
    have hv := digitsVal_natToDec m
    rw [hds] at hv
    rw [hv]
    rfl
  | negSucc m =>
    obtain ⟨c0, cs0, hc0⟩ := List.exists_cons_of_ne_nil (natToDec_ne_nil (m + 1))
    have htrue : decide ((Char.ofNat 45).toNat = 45) = true := by
      simp [charToNat_ofNat 45 (by omega)]
    have htd := takeDigits_natToDec (m + 1) rest hrest
    obtain ⟨d, ds, hds⟩ : ∃ d ds,
        (natToDec (m + 1)).map (fun c => c.toNat - 48) = d :: ds := by
      rw [hc0]
      exact ⟨c0.toNat - 48, cs0.map (fun c => c.toNat - 48), by simp⟩
    rw [show intToDec (Int.negSucc m) = Char.ofNat 45 :: natToDec (m + 1) from rfl]
    unfold parseNumber
    simp only [List.cons_append, List.head?_cons, Option.any_some, htrue, if_true,
      List.tail_cons]
    simp only [htd, hds]
    rw [if_neg (natToDec_no_leading_zero (m + 1) d ds hds)]
    rw [hdelim rest hrest]
    simp only [Bool.false_eq_true, if_false, Option.some.injEq, Prod.mk.injEq]
    refine ⟨?_, trivial⟩
    have hv := digitsVal_natToDec (m + 1)
    rw [hds] at hv
    rw [hv]
    simp only [Json.int.injEq, Int.negSucc_eq]
    omega

/-- `readUnicodeEscape` decodes the `\uXXXX` tail `dumps` writes for a
BMP non-surrogate scalar. -/
theorem readUnicodeEscape_toHex4 (n : Nat) (h1 : n < 55296 ∨ 57344 ≤ n) (h2 : n < 65536)
    (rest : List Char) :
    readUnicodeEscape (toHex4 n ++ rest) = some (Char.ofNat n, rest) := by
  have hp := parseHex4_toHex4 n h2 rest
  unfold readUnicodeEscape
  simp only [hp]
  rw [if_neg (by omega), if_neg (by omega)]

/-- `readUnicodeEscape` decodes a high-surrogate escape followed by a
low-surrogate escape into the combined scalar. -/
theorem readUnicodeEscape_pairAux (hi lo : Nat) (hhi1 : 55296 ≤ hi) (hhi2 : hi ≤ 56319)
    (hlo1 : 56320 ≤ lo) (hlo2 : lo ≤ 57343) (rest : List Char) :
    readUnicodeEscape (toHex4 hi ++ (Char.ofNat 92 :: Char.ofNat 117 :: (toHex4 lo ++ rest))) =
      some (Char.ofNat (65536 + 1024 * (hi - 55296) + (lo - 56320)), rest) := by
  have e92 : (Char.ofNat 92).toNat = 92 := charToNat_ofNat 92 (by omega)
  have e117 : (Char.ofNat 117).toNat = 117 := charToNat_ofNat 117 (by omega)
  have hp1 := parseHex4_toHex4 hi (by omega)
    (Char.ofNat 92 :: Char.ofNat 117 :: (toHex4 lo ++ rest))
  have hp2 := parseHex4_toHex4 lo (by omega) rest
  unfold readUnicodeEscape
  simp only [hp1, hp2, e92, e117, and_self, if_true]
  rw [if_pos ⟨hhi1, hhi2⟩]
  rw [if_pos ⟨hlo1, hlo2⟩]

/-- `readUnicodeEscape` decodes the surrogate-pair tail `dumps` writes
for a scalar above the BMP. -/
theorem readUnicodeEscape_pair (n : Nat) (h1 : 65536 ≤ n) (h2 : n < 1114112)
    (rest : List Char) :
    readUnicodeEscape (toHex4 (55296 + (n - 65536) / 1024) ++
      (Char.ofNat 92 :: Char.ofNat 117 :: (toHex4 (56320 + (n - 65536) % 1024) ++ rest))) =
      some (Char.ofNat n, rest) := by
  have hdiv : (n - 65536) / 1024 ≤ 1023 := by omega
  have hmod : (n - 65536) % 1024 < 1024 := Nat.mod_lt _ (by omega)
  have h := readUnicodeEscape_pairAux (55296 + (n - 65536) / 1024)
    (56320 + (n - 65536) % 1024) (by omega) (by omega) (by omega) (by omega) rest
  rw [h]
  have harith : 65536 + 1024 * (55296 + (n - 65536) / 1024 - 55296) +
      (56320 + (n - 65536) % 1024 - 56320) = n := by omega
  rw [harith]

/-- Reading a chunk that starts with `\u` hands the tail to
`readUnicodeEscape`. -/
theorem readStrChunk_uEscapeTail (t : List Char) :
    readStrChunk (Char.ofNat 92 :: Char.ofNat 117 :: t) =
      (readUnicodeEscape t).map (fun p => (some p.1, p.2)) := by
  simp [readStrChunk, simpleEscape, charToNat_ofNat 92 (by omega),
    charToNat_ofNat 117 (by omega)]

/-- `readStrChunk` undoes `escapeChar`: the reader decodes exactly the
characters the writer escaped. -/
theorem readStrChunk_escapeChar (c : Char) (rest : List Char) :
    readStrChunk (escapeChar c ++ rest) = some (some c, rest) := by
  have hval := char_toNat_not_surrogate c
  have e34 : (Char.ofNat 34).toNat = 34 := charToNat_ofNat 34 (by omega)
  have e92 : (Char.ofNat 92).toNat = 92 := charToNat_ofNat 92 (by omega)
  by_cases h1 : c = Char.ofNat 92
  · subst h1; simp [escapeChar, readStrChunk, simpleEscape]
  by_cases h2 : c = Char.ofNat 34
  · subst h2; simp [escapeChar, readStrChunk, simpleEscape]
  by_cases h3 : c = Char.ofNat 8
  · subst h3; simp [escapeChar, readStrChunk, simpleEscape]
  by_cases h4 : c = Char.ofNat 9
  · subst h4; simp [escapeChar, readStrChunk, simpleEscape]
  by_cases h5 : c = Char.ofNat 10
  · subst h5; simp [escapeChar, readStrChunk, simpleEscape]
  by_cases h6 : c = Char.ofNat 12
  · subst h6; simp [escapeChar, readStrChunk, simpleEscape]
  by_cases h7 : c = Char.ofNat 13
  · subst h7; simp [escapeChar, readStrChunk, simpleEscape]
  have h34 : c.toNat ≠ 34 := fun hc => h2 (char_eq_of_toNat_eq (by omega))
  have h92 : c.toNat ≠ 92 := fun hc => h1 (char_eq_of_toNat_eq (by omega))
  rw [escapeChar, if_neg h1, if_neg h2, if_neg h3, if_neg h4, if_neg h5, if_neg h6,
    if_neg h7]
  by_cases hpr : 32 ≤ c.toNat ∧ c.toNat ≤ 126
  · rw [if_pos hpr]
    simp only [List.cons_append, List.nil_append, readStrChunk]
    rw [if_neg h34, if_neg h92, if_neg (by omega : ¬c.toNat < 32)]
  · rw [if_neg hpr]
    by_cases hbmp : c.toNat < 65536
    · rw [if_pos hbmp]
      simp only [uEscape, List.cons_append]
      rw [readStrChunk_uEscapeTail, readUnicodeEscape_toHex4 c.toNat (by omega) hbmp]
      simp [Char.ofNat_toNat]
    · rw [if_neg hbmp]
      simp only [uEscape, List.append_assoc, List.cons_append]
      rw [readStrChunk_uEscapeTail, readUnicodeEscape_pair c.toNat (by omega) (by omega)]
      simp [Char.ofNat_toNat]

/-- The string-body reader undoes `escapeStr` up to the closing quote,
given fuel at least the number of decoded characters plus one. -/
theorem parseStringBody_escape (s : List Char) : ∀ (fuel : Nat) (rest : List Char),
    s.length + 1 ≤ fuel →
    parseStringBody fuel (escapeStr s ++ Char.ofNat 34 :: rest) = some (s, rest) := by
  induction s with
  | nil =>
    intro fuel rest hf
    match fuel, hf with
    | f + 1, _ =>
      simp [parseStringBody, escapeStr, readStrChunk,
        charToNat_ofNat 34 (by omega)]
  | cons c cs ih =>
    intro fuel rest hf
    match fuel, hf with
    | f + 1, hf =>
      simp only [escapeStr, List.map_cons, List.flatten_cons, List.append_assoc]
      rw [parseStringBody]
      have hchunk := readStrChunk_escapeChar c
        (List.flatten (List.map escapeChar cs) ++ Char.ofNat 34 :: rest)
      rw [hchunk]
      simp only
      have hrec := ih f rest (by simp at hf; omega)
      simp only [escapeStr] at hrec
      rw [hrec]
      simp

/-- `skipWs` is the identity on input that starts with a non-whitespace
character. -/
theorem skipWs_cons_of_not_ws {c : Char} (s : List Char) (h : isWs c = false) :
    skipWs (c :: s) = c :: s := by
  simp [skipWs, h]

/-- `skipWs` drops a leading whitespace character. -/
theorem skipWs_cons_of_ws {c : Char} (s : List Char) (h : isWs c = true) :
    skipWs (c :: s) = skipWs s := by
  simp [skipWs, h]

/-- `dumps` output starts with a quote, bracket, brace, keyword letter,
minus sign or digit — never whitespace, and never a closing delimiter. -/
theorem dumps_head (M : Json) : ∃ c t, dumps M = c :: t ∧ isWs c = false ∧
    c.toNat ≠ 93 := by
  cases M with
  | null => exact ⟨_, _, rfl, by decide, by decide⟩
  | bool b => cases b <;> exact ⟨_, _, rfl, by decide, by decide⟩
  | int n =>
    cases n with
    | ofNat m =>
      obtain ⟨c, t, hct⟩ := List.exists_cons_of_ne_nil (natToDec_ne_nil m)
      have hdig : isDigit c = true := natToDec_all_digits m c (by rw [hct]; simp)
      simp only [isDigit, Bool.and_eq_true, decide_eq_true_eq] at hdig
      refine ⟨c, t, hct, ?_, by omega⟩
      rw [Bool.eq_false_iff]
      intro hws
      simp only [isWs, Bool.or_eq_true, decide_eq_true_eq] at hws
      omega
    | negSucc m =>
      refine ⟨Char.ofNat 45, natToDec (m + 1), rfl, ?_, ?_⟩
      · rw [Bool.eq_false_iff]
        intro hws
        simp only [isWs, Bool.or_eq_true, decide_eq_true_eq,
          charToNat_ofNat 45 (by omega)] at hws
        omega
      · rw [charToNat_ofNat 45 (by omega)]; omega
  | str s => exact ⟨_, _, rfl, by decide, by decide⟩
  | arr xs => cases xs <;> exact ⟨_, _, rfl, by decide, by decide⟩
  | obj kvs => cases kvs <;> exact ⟨_, _, rfl, by decide, by decide⟩

/-- `skipWs` does not touch serialized output. -/
theorem skipWs_dumps_append (M : Json) (t : List Char) :
    skipWs (dumps M ++ t) = dumps M ++ t := by
  obtain ⟨c, t2, hct, hws, -⟩ := dumps_head M
  rw [hct, List.cons_append, skipWs_cons_of_not_ws _ hws]

/-- A list that starts with a comma, closing bracket or closing brace is
an acceptable number delimiter. -/
theorem delimOk_cons (c : Char) (t : List Char)
    (h : c.toNat = 44 ∨ c.toNat = 93 ∨ c.toNat = 125) : delimOk (c :: t) = true := by
  simp only [delimOk, List.head?_cons, Option.all_some, Bool.or_eq_true,
    decide_eq_true_eq]
  omega

/-- The empty rest is an acceptable number delimiter. -/
theorem delimOk_nil : delimOk [] = true := rfl

/-- After an array element comes `", "` or `"]"`, both delimiters. -/
theorem delimOk_dumpsArrRest (xs : List Json) (rest : List Char)
    (h : delimOk rest = true) : delimOk (dumpsArrRest xs ++ rest) = true := by
  cases xs with
  | nil =>
    refine delimOk_cons _ _ ?_
    rw [charToNat_ofNat 93 (by omega)]
    omega
  | cons y ys =>
    refine delimOk_cons _ _ ?_
    rw [charToNat_ofNat 44 (by omega)]
    omega

/-- After an object field comes `", "` or `"}"`, both delimiters. -/
theorem delimOk_dumpsObjRest (kvs : List (List Char × Json)) (rest : List Char)
    (h : delimOk rest = true) : delimOk (dumpsObjRest kvs ++ rest) = true := by
  cases kvs with
  | nil =>
    refine delimOk_cons _ _ ?_
    rw [charToNat_ofNat 125 (by omega)]
    omega
  | cons kv kvs =>
    refine delimOk_cons _ _ ?_
    rw [charToNat_ofNat 44 (by omega)]
    omega

/-- Literal keywords strip off their own text. -/
theorem stripPrefixChars_self : ∀ (p s : List Char), stripPrefixChars p (p ++ s) = some s
  | [], s => rfl
  | a :: p2, s => by
    simp only [List.cons_append, stripPrefixChars, if_pos rfl]
    exact stripPrefixChars_self p2 s

/-- Escaping a character never produces the empty string. -/
theorem escapeChar_length_pos (c : Char) : 1 ≤ (escapeChar c).length := by
  unfold escapeChar
  split_ifs <;> simp [uEscape, toHex4]

/-- Escaping cannot shrink a string. -/
theorem escapeStr_length (s : List Char) : s.length ≤ (escapeStr s).length := by
  induction s with
  | nil => simp [escapeStr]
  | cons c cs ih =>
    simp only [escapeStr, List.map_cons, List.flatten_cons, List.length_cons,
      List.length_append]
    have := escapeChar_length_pos c
    simp only [escapeStr] at ih
    omega

mutual

/-- Well-formed message values: every object, at every depth, has
pairwise-distinct keys.  `json.loads` collapses duplicate keys (last
value wins), so only such values round-trip; every JSON value the server
or a CPython `dict` produces satisfies this. -/
def jsonWF : Json → Bool
  | Json.arr xs => jsonArrWF xs
  | Json.obj kvs => jsonObjWF kvs
  | _ => true

/-- `jsonWF` on every element of an array. -/
def jsonArrWF : List Json → Bool
  | [] => true
  | x :: xs => jsonWF x && jsonArrWF xs

/-- Each key absent from the remaining fields, each value well-formed. -/
def jsonObjWF : List (List Char × Json) → Bool
  | [] => true
  | (k, v) :: kvs => (alookup kvs k).isNone && jsonWF v && jsonObjWF kvs

end

/-- Rebuilding a fresh-keyed field list by successive dict assignment
appends every pair. -/
theorem adictOf_fresh_aux : ∀ (pairs acc : List (List Char × Json)),
    jsonObjWF pairs = true → (∀ kv ∈ pairs, alookup acc kv.1 = none) →
    List.foldl (fun acc kv => ainsert acc kv.1 kv.2) acc pairs = acc ++ pairs := by
  intro pairs
  induction pairs with
  | nil => intro acc _ _; simp
  | cons kv rest ih =>
    intro acc hwf hacc
    obtain ⟨k, v⟩ := kv
    simp only [jsonObjWF, Bool.and_eq_true, Option.isNone_iff_eq_none] at hwf
    obtain ⟨⟨hfresh, -⟩, hrest⟩ := hwf
    simp only [List.foldl_cons]
    rw [ainsert_of_none acc k v (hacc (k, v) (by simp))]
    rw [ih (acc ++ [(k, v)]) hrest ?_]
    · simp
    · intro kv2 hkv2
      rw [alookup_append, hacc kv2 (List.mem_cons_of_mem _ hkv2)]
      have hne : k ≠ kv2.1 := by
        intro hcontra
        have hmem : kv2.1 ∈ rest.map Prod.fst := List.mem_map_of_mem Prod.fst hkv2
        rw [← hcontra] at hmem
        exact (alookup_eq_none rest k).mp hfresh hmem
      simp [alookup, hne]

/-- On a well-formed field list, dict reconstruction is the identity:
the JSON object scanner returns the pairs as written. -/
theorem adictOf_eq_self (kvs : List (List Char × Json)) (h : jsonObjWF kvs = true) :
    adictOf kvs = kvs := by
  unfold adictOf
  simpa using adictOf_fresh_aux kvs [] h (fun kv _ => rfl)

/-- Every JSON value has positive size. -/
theorem jsonSize_pos (M : Json) : 1 ≤ jsonSize M := by
  cases M <;> simp [jsonSize]

/-- Every array tail has positive size. -/
theorem jsonListSize_pos (xs : List Json) : 1 ≤ jsonListSize xs := by
  cases xs with
  | nil => simp [jsonListSize]
  | cons x xs => simp only [jsonListSize]; omega

/-- Every field-list tail has positive size. -/
theorem jsonObjSize_pos (kvs : List (List Char × Json)) : 1 ≤ jsonObjSize kvs := by
  cases kvs with
  | nil => simp [jsonObjSize]
  | cons kv kvs => obtain ⟨k, v⟩ := kv; simp only [jsonObjSize]; omega

mutual

/-- The parser fuel bound: a value's size is at most twice its rendered
length. -/
theorem jsonSize_le_dumps : ∀ M : Json, jsonSize M ≤ 2 * (dumps M).length
  | Json.null => by simp [jsonSize, dumps]
  | Json.bool b => by cases b <;> simp [jsonSize, dumps]
  | Json.int n => by
    have : dumps (Json.int n) ≠ [] := by
      cases n with
      | ofNat m => exact natToDec_ne_nil m
      | negSucc m => simp [dumps, intToDec]
    have hlen : 1 ≤ (dumps (Json.int n)).length := by
      cases hd : dumps (Json.int n)
      · exact absurd hd this
      · simp
    simp only [jsonSize]
    omega
  | Json.str s => by simp [jsonSize, dumps, quoteStr]; omega
  | Json.arr [] => by simp [jsonSize, jsonListSize, dumps]
  | Json.arr (x :: xs) => by
    have h1 := jsonSize_le_dumps x
    have h2 := jsonListSize_le_dumps xs
    simp only [jsonSize, jsonListSize, dumps, List.length_cons, List.length_append]
    omega
  | Json.obj [] => by simp [jsonSize, jsonObjSize, dumps]
  | Json.obj ((k, v) :: kvs) => by
    have h1 := jsonSize_le_dumps v
    have h2 := jsonObjSize_le_dumps kvs
    have hf : (dumpsField (k, v)).length =
        (quoteStr k).length + 2 + (dumps v).length := by
      rw [show dumpsField (k, v) = quoteStr k ++ Char.ofNat 58 :: Char.ofNat 32 ::
        dumps v from rfl]
      simp only [List.length_append, List.length_cons]
      omega
    simp only [jsonSize, jsonObjSize, dumps, List.length_cons, List.length_append, hf]
    omega

/-- The rest of an array is at least half as long as its size. -/
theorem jsonListSize_le_dumps : ∀ xs : List Json,
    jsonListSize xs ≤ 2 * (dumpsArrRest xs).length
  | [] => by simp [jsonListSize, dumpsArrRest]
  | x :: xs => by
    have h1 := jsonSize_le_dumps x
    have h2 := jsonListSize_le_dumps xs
    simp only [jsonListSize, dumpsArrRest, List.length_cons, List.length_append]
    omega

/-- The rest of an object is at least half as long as its size. -/
theorem jsonObjSize_le_dumps : ∀ kvs : List (List Char × Json),
    jsonObjSize kvs ≤ 2 * (dumpsObjRest kvs).length
  | [] => by simp [jsonObjSize, dumpsObjRest]
  | (k, v) :: kvs => by
    have h1 := jsonSize_le_dumps v
    have h2 := jsonObjSize_le_dumps kvs
    have hf : (dumpsField (k, v)).length =
        (quoteStr k).length + 2 + (dumps v).length := by
      rw [show dumpsField (k, v) = quoteStr k ++ Char.ofNat 58 :: Char.ofNat 32 ::
        dumps v from rfl]
      simp only [List.length_append, List.length_cons]
      omega
    simp only [jsonObjSize, dumpsObjRest, List.length_cons, List.length_append, hf]
    omega

end

/-- The first character of a rendered integer: a minus sign or a digit. -/
theorem intToDec_head (n : Int) : ∃ c cs, intToDec n = c :: cs ∧
    (c.toNat = 45 ∨ (48 ≤ c.toNat ∧ c.toNat ≤ 57)) := by
  cases n with
  | ofNat m =>
    obtain ⟨c, cs, hc⟩ := List.exists_cons_of_ne_nil (natToDec_ne_nil m)
    have hdig : isDigit c = true := natToDec_all_digits m c (by rw [hc]; simp)
    simp only [isDigit, Bool.and_eq_true, decide_eq_true_eq] at hdig
    exact ⟨c, cs, hc, Or.inr hdig⟩
  | negSucc m =>
    exact ⟨Char.ofNat 45, natToDec (m + 1), rfl,
      Or.inl (charToNat_ofNat 45 (by omega))⟩

/-- A rendered field in head-normal form. -/
theorem dumpsField_eq (k : List Char) (v : Json) :
    dumpsField (k, v) = Char.ofNat 34 :: (escapeStr k ++
      (Char.ofNat 34 :: Char.ofNat 58 :: Char.ofNat 32 :: dumps v)) := by
  simp [dumpsField, quoteStr]

/-- `skipWs` does not touch a rendered field. -/
theorem skipWs_dumpsField_append (k : List Char) (v : Json) (t : List Char) :
    skipWs (dumpsField (k, v) ++ t) = dumpsField (k, v) ++ t := by
  rw [dumpsField_eq, List.cons_append, skipWs_cons_of_not_ws _ (by decide)]

/-- Round trip of the recursive-descent parser on serializer output: one
conjunct per mutual parser function, proved by induction on the shared
fuel.  The input is presented through `skipWs` because the grammar allows
whitespace before every token. -/
theorem parse_dumps_master : ∀ fuel : Nat,
    (∀ M s rest, jsonWF M = true → jsonSize M < fuel → delimOk rest = true →
      skipWs s = dumps M ++ rest → parseVal fuel s = some (M, rest)) ∧
    (∀ x xs s rest, jsonWF x = true → jsonArrWF xs = true →
      jsonListSize (x :: xs) < fuel → delimOk rest = true →
      skipWs s = dumps x ++ (dumpsArrRest xs ++ rest) →
      parseArrItems fuel s = some (x :: xs, rest)) ∧
    (∀ k v kvs s rest, jsonWF v = true → jsonObjWF kvs = true →
      jsonObjSize ((k, v) :: kvs) < fuel → delimOk rest = true →
      skipWs s = dumpsField (k, v) ++ (dumpsObjRest kvs ++ rest) →
      parseObjItems fuel s = some ((k, v) :: kvs, rest)) := by
  intro fuel
  induction fuel with
  | zero =>
    exact ⟨fun M s rest h1 h2 => absurd h2 (by omega),
      fun x xs s rest h1 h2 h3 => absurd h3 (by omega),
      fun k v kvs s rest h1 h2 h3 => absurd h3 (by omega)⟩
  | succ fuel ih =>
    obtain ⟨ihV, ihA, ihO⟩ := ih
    refine ⟨?_, ?_, ?_⟩
    · intro M s rest hwf hsz hdel hs
      cases M with
      | null =>
        simp only [dumps] at hs
        simp only [parseVal, hs, List.cons_append, List.nil_append]
        rw [if_neg (by decide), if_neg (by decide), if_neg (by decide),
          if_pos (by decide)]
        rw [show Char.ofNat 117 :: Char.ofNat 108 :: Char.ofNat 108 :: rest =
          (Char.ofNat 117 :: Char.ofNat 108 :: [Char.ofNat 108]) ++ rest from rfl]
        rw [stripPrefixChars_self]
        rfl
      | bool b =>
        cases b with
        | true =>
          simp only [dumps] at hs
          simp only [parseVal, hs, List.cons_append, List.nil_append]
          rw [if_neg (by decide), if_neg (by decide), if_neg (by decide),
            if_neg (by decide), if_pos (by decide)]
          rw [show Char.ofNat 114 :: Char.ofNat 117 :: Char.ofNat 101 :: rest =
            (Char.ofNat 114 :: Char.ofNat 117 :: [Char.ofNat 101]) ++ rest from rfl]
          rw [stripPrefixChars_self]
          rfl
        | false =>
          simp only [dumps] at hs
          simp only [parseVal, hs, List.cons_append, List.nil_append]
          rw [if_neg (by decide), if_neg (by decide), if_neg (by decide),
            if_neg (by decide), if_neg (by decide), if_pos (by decide)]
          rw [show Char.ofNat 97 :: Char.ofNat 108 :: Char.ofNat 115 ::
              Char.ofNat 101 :: rest =
            (Char.ofNat 97 :: Char.ofNat 108 :: Char.ofNat 115 ::
              [Char.ofNat 101]) ++ rest from rfl]
          rw [stripPrefixChars_self]
          rfl
      | int n =>
        obtain ⟨c, cs, hc, hrange⟩ := intToDec_head n
        simp only [dumps] at hs
        rw [hc, List.cons_append] at hs
        simp only [parseVal, hs]
        rw [if_neg (by omega), if_neg (by omega), if_neg (by omega),
          if_neg (by omega), if_neg (by omega), if_neg (by omega)]
        have hcond : (decide (c.toNat = 45) || isDigit c) = true := by
          rcases hrange with h | h
          · rw [h]; simp
          · have hd : isDigit c = true := by
              simp only [isDigit, Bool.and_eq_true, decide_eq_true_eq]
              omega
            rw [hd]; simp
        rw [if_pos hcond]
        rw [show c :: (cs ++ rest) = intToDec n ++ rest from by rw [hc]; rfl]
        exact parseNumber_intToDec n rest hdel
      | str t =>
        have hsq : skipWs s = Char.ofNat 34 ::
            (escapeStr t ++ (Char.ofNat 34 :: rest)) := by
          rw [hs]
          simp [dumps, quoteStr]
        simp only [parseVal, hsq]
        rw [if_pos (by decide)]
        rw [parseStringBody_escape t
          ((escapeStr t ++ (Char.ofNat 34 :: rest)).length + 1) rest
          (by have h1 := escapeStr_length t
              simp only [List.length_append, List.length_cons]
              omega)]
        rfl
      | arr xs =>
        cases xs with
        | nil =>
          simp only [dumps] at hs
          simp only [parseVal, hs, List.cons_append, List.nil_append]
          rw [if_neg (by decide), if_pos (by decide)]
          have hsk : skipWs (Char.ofNat 93 :: rest) = Char.ofNat 93 :: rest :=
            skipWs_cons_of_not_ws _ (by decide)
          simp only [hsk]
          rw [if_pos (by decide)]
        | cons x xs =>
          obtain ⟨c1, t1, hct1, hws1, h93⟩ := dumps_head x
          have hwf2 : jsonWF x = true ∧ jsonArrWF xs = true := by
            simpa [jsonWF, jsonArrWF, Bool.and_eq_true] using hwf
          have hs2 : skipWs s = Char.ofNat 91 ::
              (dumps x ++ (dumpsArrRest xs ++ rest)) := by
            rw [hs]
            simp [dumps]
          simp only [parseVal, hs2]
          rw [if_neg (by decide), if_pos (by decide)]
          have hsk : skipWs (dumps x ++ (dumpsArrRest xs ++ rest)) =
              c1 :: (t1 ++ (dumpsArrRest xs ++ rest)) := by
            rw [skipWs_dumps_append, hct1, List.cons_append]
          simp only [hsk]
          rw [if_neg h93]
          rw [ihA x xs (c1 :: (t1 ++ (dumpsArrRest xs ++ rest))) rest hwf2.1 hwf2.2
            (by simp only [jsonSize] at hsz; omega)
            hdel
            (by rw [skipWs_cons_of_not_ws _ hws1, ← List.cons_append, ← hct1])]
          rfl
      | obj kvs0 =>
        cases kvs0 with
        | nil =>
          simp only [dumps] at hs
          simp only [parseVal, hs, List.cons_append, List.nil_append]
          rw [if_neg (by decide), if_neg (by decide), if_pos (by decide)]
          have hsk : skipWs (Char.ofNat 125 :: rest) = Char.ofNat 125 :: rest :=
            skipWs_cons_of_not_ws _ (by decide)
          simp only [hsk]
          rw [if_pos (by decide)]
        | cons kv kvs =>
          obtain ⟨k, v⟩ := kv
          have hobj : jsonObjWF ((k, v) :: kvs) = true := by
            simpa [jsonWF] using hwf
          have hparts := hobj
          simp only [jsonObjWF, Bool.and_eq_true] at hparts
          have hs2 : skipWs s = Char.ofNat 123 ::
              (dumpsField (k, v) ++ (dumpsObjRest kvs ++ rest)) := by
            rw [hs]
            simp [dumps]
          simp only [parseVal, hs2]
          rw [if_neg (by decide), if_neg (by decide), if_pos (by decide)]
          have hsk : skipWs (dumpsField (k, v) ++ (dumpsObjRest kvs ++ rest)) =
              Char.ofNat 34 :: ((escapeStr k ++ (Char.ofNat 34 :: Char.ofNat 58 ::
                Char.ofNat 32 :: dumps v)) ++ (dumpsObjRest kvs ++ rest)) := by
            rw [skipWs_dumpsField_append, dumpsField_eq, List.cons_append]
          simp only [hsk]
          rw [if_neg (by decide)]
          rw [ihO k v kvs (Char.ofNat 34 :: ((escapeStr k ++ (Char.ofNat 34 ::
              Char.ofNat 58 :: Char.ofNat 32 :: dumps v)) ++
              (dumpsObjRest kvs ++ rest))) rest
            hparts.1.2 hparts.2
            (by simp only [jsonSize] at hsz; omega)
            hdel
            (by rw [skipWs_cons_of_not_ws _ (by decide), ← List.cons_append,
                ← dumpsField_eq])]
          simp [adictOf_eq_self _ hobj]
    · intro x xs s rest hwfx hwfxs hsz hdel hs
      simp only [parseArrItems]
      rw [ihV x s (dumpsArrRest xs ++ rest) hwfx
        (by simp only [jsonListSize] at hsz
            have := jsonListSize_pos xs
            omega)
        (delimOk_dumpsArrRest xs rest hdel) hs]
      simp only [Option.bind]
      cases xs with
      | nil =>
        have hsk : skipWs (dumpsArrRest [] ++ rest) = Char.ofNat 93 :: rest := by
          rw [show dumpsArrRest ([] : List Json) = [Char.ofNat 93] from rfl,
            List.singleton_append]
          exact skipWs_cons_of_not_ws _ (by decide)
        simp only [hsk]
        rw [if_neg (by decide), if_pos (by decide)]
      | cons y ys =>
        have hsk : skipWs (dumpsArrRest (y :: ys) ++ rest) = Char.ofNat 44 ::
            (Char.ofNat 32 :: (dumps y ++ (dumpsArrRest ys ++ rest))) := by
          rw [show dumpsArrRest (y :: ys) = Char.ofNat 44 :: Char.ofNat 32 ::
            (dumps y ++ dumpsArrRest ys) from rfl]
          rw [List.cons_append, List.cons_append, List.append_assoc]
          exact skipWs_cons_of_not_ws _ (by decide)
        simp only [hsk]
        rw [if_pos (by decide)]
        have hwf2 : jsonWF y = true ∧ jsonArrWF ys = true := by
          simpa [jsonArrWF, Bool.and_eq_true] using hwfxs
        rw [ihA y ys (Char.ofNat 32 :: (dumps y ++ (dumpsArrRest ys ++ rest))) rest
          hwf2.1 hwf2.2
          (by simp only [jsonListSize] at hsz ⊢
              have := jsonSize_pos x
              omega)
          hdel
          (by rw [skipWs_cons_of_ws _ (by decide), skipWs_dumps_append])]
        rfl
    · intro k v kvs s rest hwfv hwfkvs hsz hdel hs
      have hs2 : skipWs s = Char.ofNat 34 :: (escapeStr k ++ (Char.ofNat 34 ::
          Char.ofNat 58 :: Char.ofNat 32 ::
          (dumps v ++ (dumpsObjRest kvs ++ rest)))) := by
        rw [hs, dumpsField_eq]
        simp [List.cons_append, List.append_assoc]
      simp only [parseObjItems, hs2]
      rw [if_pos (by decide)]
      rw [parseStringBody_escape k
        ((escapeStr k ++ (Char.ofNat 34 :: Char.ofNat 58 :: Char.ofNat 32 ::
          (dumps v ++ (dumpsObjRest kvs ++ rest)))).length + 1)
        (Char.ofNat 58 :: Char.ofNat 32 :: (dumps v ++ (dumpsObjRest kvs ++ rest)))
        (by have h1 := escapeStr_length k
            simp only [List.length_append, List.length_cons]
            omega)]
      simp only [Option.bind]
      have hsk1 : skipWs (Char.ofNat 58 :: Char.ofNat 32 ::
          (dumps v ++ (dumpsObjRest kvs ++ rest))) = Char.ofNat 58 :: Char.ofNat 32 ::
          (dumps v ++ (dumpsObjRest kvs ++ rest)) :=
        skipWs_cons_of_not_ws _ (by decide)
      simp only [hsk1]
      rw [if_pos (by decide)]
      rw [ihV v (Char.ofNat 32 :: (dumps v ++ (dumpsObjRest kvs ++ rest)))
        (dumpsObjRest kvs ++ rest) hwfv
        (by simp only [jsonObjSize] at hsz
            have := jsonObjSize_pos kvs
            omega)
        (delimOk_dumpsObjRest kvs rest hdel)
        (by rw [skipWs_cons_of_ws _ (by decide), skipWs_dumps_append])]
      simp only [Option.bind]
      cases kvs with
      | nil =>
        have hsk2 : skipWs (dumpsObjRest [] ++ rest) = Char.ofNat 125 :: rest := by
          rw [show dumpsObjRest ([] : List (List Char × Json)) =
            [Char.ofNat 125] from rfl, List.singleton_append]
          exact skipWs_cons_of_not_ws _ (by decide)
        simp only [hsk2]
        rw [if_neg (by decide), if_pos (by decide)]
      | cons kv2 kvs2 =>
        obtain ⟨k2, v2⟩ := kv2
        have hparts : jsonWF v2 = true ∧ jsonObjWF kvs2 = true := by
          simp only [jsonObjWF, Bool.and_eq_true] at hwfkvs
          exact ⟨hwfkvs.1.2, hwfkvs.2⟩
        have hsk2 : skipWs (dumpsObjRest ((k2, v2) :: kvs2) ++ rest) =
            Char.ofNat 44 :: (Char.ofNat 32 ::
              (dumpsField (k2, v2) ++ (dumpsObjRest kvs2 ++ rest))) := by
          rw [show dumpsObjRest ((k2, v2) :: kvs2) = Char.ofNat 44 :: Char.ofNat 32 ::
            (dumpsField (k2, v2) ++ dumpsObjRest kvs2) from rfl]
          rw [List.cons_append, List.cons_append, List.append_assoc]
          exact skipWs_cons_of_not_ws _ (by decide)
        simp only [hsk2]
        rw [if_pos (by decide)]
        rw [ihO k2 v2 kvs2 (Char.ofNat 32 ::
            (dumpsField (k2, v2) ++ (dumpsObjRest kvs2 ++ rest))) rest
          hparts.1 hparts.2
          (by simp only [jsonObjSize] at hsz ⊢
              have := jsonSize_pos v
              omega)
          hdel
          (by rw [skipWs_cons_of_ws _ (by decide), skipWs_dumpsField_append])]
        rfl

/-- `json.loads` undoes `json.dumps` on well-formed values. -/
theorem loads_dumps (M : Json) (h : jsonWF M = true) : loads (dumps M) = some M := by
  unfold loads
  rw [(parse_dumps_master (2 * (dumps M).length + 2)).1 M (dumps M) [] h
    (by have := jsonSize_le_dumps M; omega) delimOk_nil
    (by have h2 := skipWs_dumps_append M []; simpa using h2)]
  rfl

/-- ASCII text encodes byte-for-byte. -/
theorem utf8Encode_ascii : ∀ (s : List Char), (∀ c ∈ s, c.toNat < 128) →
    utf8Encode s = s.map Char.toNat
  | [], _ => rfl
  | c :: cs, h => by
    have hc : c.toNat < 128 := h c (by simp)
    simp only [utf8Encode, List.map_cons, List.flatten_cons]
    rw [show utf8EncodeChar c.toNat = [c.toNat] from by
      unfold utf8EncodeChar; rw [if_pos hc]]
    have ih := utf8Encode_ascii cs (fun d hd => h d (by simp [hd]))
    simp only [utf8Encode] at ih
    rw [List.singleton_append, ih]

/-- Decoding the bytes of ASCII text restores the text. -/
theorem utf8Decode_map_ascii : ∀ (s : List Char), (∀ c ∈ s, c.toNat < 128) →
    utf8Decode (s.map Char.toNat) = s
  | [], _ => rfl
  | c :: cs, h => by
    have hc : c.toNat < 128 := h c (by simp)
    have ih := utf8Decode_map_ascii cs (fun d hd => h d (by simp [hd]))
    rw [List.map_cons, utf8Decode.eq_def]
    simp only [hc, if_true, Char.ofNat_toNat, ih]

/-- Hexadecimal digit characters are ASCII. -/
theorem hexChar_lt128 (d : Nat) (h : d < 16) : (hexChar d).toNat < 128 := by
  unfold hexChar
  split_ifs with h10
  · rw [charToNat_ofNat _ (by omega)]; omega
  · rw [charToNat_ofNat _ (by omega)]; omega

/-- Unicode escapes are ASCII. -/
theorem uEscape_ascii (n : Nat) : ∀ c ∈ uEscape n, c.toNat < 128 := by
  intro c hc
  simp only [uEscape, toHex4, List.mem_cons, List.not_mem_nil, or_false] at hc
  rcases hc with h | h | h | h | h | h
  · subst h; decide
  · subst h; decide
  · subst h; exact hexChar_lt128 _ (Nat.mod_lt _ (by omega))
  · subst h; exact hexChar_lt128 _ (Nat.mod_lt _ (by omega))
  · subst h; exact hexChar_lt128 _ (Nat.mod_lt _ (by omega))
  · subst h; exact hexChar_lt128 _ (Nat.mod_lt _ (by omega))

/-- `ensure_ascii` escaping is ASCII. -/
theorem escapeChar_ascii (c : Char) : ∀ d ∈ escapeChar c, d.toNat < 128 := by
  intro d hd
  unfold escapeChar at hd
  split_ifs at hd with h1 h2 h3 h4 h5 h6 h7 h8 h9
  · simp only [List.mem_cons, List.not_mem_nil, or_false] at hd
    rcases hd with h | h <;> (subst h; decide)
  · simp only [List.mem_cons, List.not_mem_nil, or_false] at hd
    rcases hd with h | h <;> (subst h; decide)
  · simp only [List.mem_cons, List.not_mem_nil, or_false] at hd
    rcases hd with h | h <;> (subst h; decide)
  · simp only [List.mem_cons, List.not_mem_nil, or_false] at hd
    rcases hd with h | h <;> (subst h; decide)
  · simp only [List.mem_cons, List.not_mem_nil, or_false] at hd
    rcases hd with h | h <;> (subst h; decide)
  · simp only [List.mem_cons, List.not_mem_nil, or_false] at hd
    rcases hd with h | h <;> (subst h; decide)
  · simp only [List.mem_cons, List.not_mem_nil, or_false] at hd
    rcases hd with h | h <;> (subst h; decide)
  · simp only [List.mem_singleton] at hd
    subst hd; omega
  · exact uEscape_ascii _ d hd
  · rcases List.mem_append.mp hd with h | h
    · exact uEscape_ascii _ d h
    · exact uEscape_ascii _ d h

/-- Escaped string bodies are ASCII. -/
theorem escapeStr_ascii (s : List Char) : ∀ d ∈ escapeStr s, d.toNat < 128 := by
  intro d hd
  simp only [escapeStr, List.mem_flatten, List.mem_map] at hd
  obtain ⟨l, ⟨c, hc, hl⟩, hdl⟩ := hd
  subst hl
  exact escapeChar_ascii c d hdl

/-- String literals are ASCII. -/
theorem quoteStr_ascii (s : List Char) : ∀ d ∈ quoteStr s, d.toNat < 128 := by
  intro d hd
  simp only [quoteStr, List.cons_append, List.mem_cons, List.mem_append,
    List.mem_singleton] at hd
  rcases hd with h | h | h | h
  · subst h; decide
  · exact escapeStr_ascii s d h
  · subst h; decide
  · exact absurd h (List.not_mem_nil d)

/-- Rendered integers are ASCII. -/
theorem intToDec_ascii (n : Int) : ∀ c ∈ intToDec n, c.toNat < 128 := by
  intro c hc
  cases n with
  | ofNat m =>
    rw [show intToDec (Int.ofNat m) = natToDec m from rfl] at hc
    have h := natToDec_all_digits m c hc
    simp only [isDigit, Bool.and_eq_true, decide_eq_true_eq] at h
    omega
  | negSucc m =>
    rw [show intToDec (Int.negSucc m) = Char.ofNat 45 :: natToDec (m + 1) from rfl] at hc
    rcases List.mem_cons.mp hc with h | h
    · subst h; decide
    · have h2 := natToDec_all_digits (m + 1) c h
      simp only [isDigit, Bool.and_eq_true, decide_eq_true_eq] at h2
      omega

mutual

/-- `json.dumps` output is pure ASCII (`ensure_ascii=True`). -/
theorem dumps_ascii : ∀ M : Json, ∀ c ∈ dumps M, c.toNat < 128
  | Json.null => by decide
  | Json.bool true => by decide
  | Json.bool false => by decide
  | Json.int n => intToDec_ascii n
  | Json.str s => quoteStr_ascii s
  | Json.arr [] => by decide
  | Json.arr (x :: xs) => by
    intro c hc
    simp only [dumps, List.cons_append, List.mem_cons, List.mem_append] at hc
    rcases hc with h | h | h
    · subst h; decide
    · exact dumps_ascii x c h
    · exact dumpsArrRest_ascii xs c h
  | Json.obj [] => by decide
  | Json.obj (f :: fs) => by
    intro c hc
    simp only [dumps, List.cons_append, List.mem_cons, List.mem_append] at hc
    rcases hc with h | h | h
    · subst h; decide
    · exact dumpsField_ascii f c h
    · exact dumpsObjRest_ascii fs c h

/-- Array tails are ASCII. -/
theorem dumpsArrRest_ascii : ∀ xs : List Json, ∀ c ∈ dumpsArrRest xs, c.toNat < 128
  | [] => by decide
  | x :: xs => by
    intro c hc
    simp only [dumpsArrRest, List.cons_append, List.mem_cons, List.mem_append] at hc
    rcases hc with h | h | h | h
    · subst h; decide
    · subst h; decide
    · exact dumps_ascii x c h
    · exact dumpsArrRest_ascii xs c h

/-- Rendered fields are ASCII. -/
theorem dumpsField_ascii : ∀ f : List Char × Json, ∀ c ∈ dumpsField f, c.toNat < 128
  | (k, v) => by
    intro c hc
    rw [dumpsField_eq] at hc
    simp only [List.mem_cons, List.mem_append] at hc
    rcases hc with h | h | h | h | h | h
    · subst h; decide
    · exact escapeStr_ascii k c h
    · subst h; decide
    · subst h; decide
    · subst h; decide
    · exact dumps_ascii v c h

/-- Field-list tails are ASCII. -/
theorem dumpsObjRest_ascii : ∀ fs : List (List Char × Json),
    ∀ c ∈ dumpsObjRest fs, c.toNat < 128
  | [] => by decide
  | f :: fs => by
    intro c hc
    simp only [dumpsObjRest, List.cons_append, List.mem_cons, List.mem_append] at hc
    rcases hc with h | h | h | h
    · subst h; decide
    · subst h; decide
    · exact dumpsField_ascii f c h
    · exact dumpsObjRest_ascii fs c h

end

/-- The header matcher on the exact frame `send` writes. -/
theorem matchHeaderAt_frame (L : Nat) (body : List Char) :
    matchHeaderAt (headerLit ++ (natToDec L ++ (crlf2 ++ body))) =
      some (L, headerLit.length + (natToDec L).length + 4) := by
  have hnd : (crlf2 ++ body).head?.all (fun c => !(isDigit c)) = true := by
    rw [show crlf2 ++ body = Char.ofNat 13 :: (Char.ofNat 10 :: Char.ofNat 13 ::
      Char.ofNat 10 :: body) from rfl]
    simp only [List.head?_cons, Option.all_some]
    decide
  have htd := takeDigits_run (natToDec L) (crlf2 ++ body) (natToDec_all_digits L) hnd
  have hdv : digitsVal ((natToDec L).map (fun c => c.toNat - 48)) = L :=
    digitsVal_natToDec L
  obtain ⟨c0, cs0, hc0⟩ := List.exists_cons_of_ne_nil (natToDec_ne_nil L)
  unfold matchHeaderAt
  rw [stripPrefixChars_self, hc0]
  rw [hc0] at htd hdv
  simp only [List.map_cons] at htd hdv
  simp only [htd, stripPrefixChars_self]
  simp only [hdv, List.length_cons, List.length_map]

/-- A successful match at the start is what the searcher returns. -/
theorem findHeader_of_matchAt : ∀ (s : List Char) (p : Nat × Nat),
    matchHeaderAt s = some p → findHeader s = some p
  | [], p => by
    intro h
    rw [show matchHeaderAt [] = none from rfl] at h
    cases h
  | c :: cs, p => by
    intro h
    simp [findHeader, h]

/-- The header loop stops on an empty decoded buffer. -/
theorem procLoop_nil : ∀ (f : Nat) (shared : List Nat),
    procLoop f [] shared = ([], shared)
  | 0, _ => rfl
  | _ + 1, _ => rfl

/-- `_process_buffer` on exactly one frame produced by `send`: one
callback with the original message, empty remaining buffer — for every
sufficient fuel, so the result transfers to `processBuffer`. -/
theorem processBufR_frame (M : Json) (hwf : jsonWF M = true) (f : Nat) :
    processBufR (f + 1 + 1) (sendBytes M) = ([M], []) := by
  have hframe : sendBytes M = utf8Encode (headerLit ++
      (natToDec (dumps M).length ++ (crlf2 ++ dumps M))) := by
    simp only [sendBytes, List.append_assoc]
  have hascii : ∀ c ∈ headerLit ++ (natToDec (dumps M).length ++ (crlf2 ++ dumps M)),
      c.toNat < 128 := by
    intro c hc
    rcases List.mem_append.mp hc with h | h
    · exact (show ∀ c ∈ headerLit, c.toNat < 128 by decide) c h
    rcases List.mem_append.mp h with h | h
    · have h2 := natToDec_all_digits (dumps M).length c h
      simp only [isDigit, Bool.and_eq_true, decide_eq_true_eq] at h2
      omega
    rcases List.mem_append.mp h with h | h
    · exact (show ∀ c ∈ crlf2, c.toNat < 128 by decide) c h
    · exact dumps_ascii M c h
  have hdec : utf8Decode (sendBytes M) =
      headerLit ++ (natToDec (dumps M).length ++ (crlf2 ++ dumps M)) := by
    rw [hframe, utf8Encode_ascii _ hascii, utf8Decode_map_ascii _ hascii]
  have hfh := findHeader_of_matchAt _ _ (matchHeaderAt_frame (dumps M).length (dumps M))
  have hc4 : crlf2.length = 4 := rfl
  have hdrop : (headerLit ++ (natToDec (dumps M).length ++ (crlf2 ++ dumps M))).drop
      (headerLit.length + (natToDec (dumps M).length).length + 4) = dumps M := by
    rw [show headerLit ++ (natToDec (dumps M).length ++ (crlf2 ++ dumps M)) =
      (headerLit ++ natToDec (dumps M).length ++ crlf2) ++ dumps M from by
        simp [List.append_assoc]]
    rw [show headerLit.length + (natToDec (dumps M).length).length + 4 =
      (headerLit ++ natToDec (dumps M).length ++ crlf2).length from by
        simp only [List.length_append, hc4]]
    exact List.drop_left _ _
  have hdrop2 : (headerLit ++ (natToDec (dumps M).length ++ (crlf2 ++ dumps M))).drop
      (headerLit.length + (natToDec (dumps M).length).length + 4 + (dumps M).length) =
      [] := by
    apply List.drop_eq_nil_of_le
    simp only [List.length_append, hc4]
    omega
  simp only [processBufR]
  rw [hdec]
  simp only [procLoop, hfh]
  rw [if_neg (by
    simp only [List.length_append, hc4]
    omega)]
  simp only [hdrop, List.take_length, hdrop2]
  rw [loads_dumps M hwf]
  simp [show utf8Encode ([] : List Char) = [] from rfl, procLoop_nil]

/-- C8: framing round trip.  For every well-formed message value `M`
(objects with duplicate-free keys at every depth, which is every value a
CPython dict produces), feeding the exact bytes `send` writes back
through `_process_buffer` dispatches exactly `M` once and leaves an
empty read buffer; and the `Content-Length` value `send` writes —
`len(content)`, the character count of the JSON text — equals the exact
UTF-8 byte length of the body, because `ensure_ascii=True` output is
pure ASCII. -/
theorem c8_framing_round_trip (M : Json) (hwf : jsonWF M = true) :
    processBuffer (sendBytes M) = ([M], []) ∧
    (utf8Encode (dumps M)).length = (dumps M).length := by
  constructor
  · unfold processBuffer
    rw [show 2 ^ (sendBytes M).length + 3 =
      2 ^ (sendBytes M).length + 1 + 1 + 1 from by omega]
    exact processBufR_frame M hwf (2 ^ (sendBytes M).length + 1)
  · rw [utf8Encode_ascii (dumps M) (dumps_ascii M), List.length_map]

/-- A concrete message for the round-trip witness. -/
def c8Msg : Json :=
  Json.obj [("id".data, Json.int 7), ("type".data, Json.str "ping".data)]

/-- Witness: the round-trip theorem applied to a concrete message. -/
theorem c8_framing_round_trip_witness :
    jsonWF c8Msg = true ∧ (processBuffer (sendBytes c8Msg) = ([c8Msg], []) ∧
      (utf8Encode (dumps c8Msg)).length = (dumps c8Msg).length) :=
  ⟨by decide, c8_framing_round_trip c8Msg (by decide)⟩

end PaypalMcp
